import Mathlib

/-!
Verification development for the real-time resource synchronization subsystem of the
gardener-dashboard repository: the server-side watch-to-room fan-out layer
(`backend/lib/watches/shoots.js`, the socket.io subscription handler), the client-side
list-state engine (`frontend/src/store/modules/shoots.js` and the split
`shoots/actions.js` + `shoots/mutations.js` revision), and the tickets/comments store
modules.  JavaScript values are shallowly embedded: objects become structures, the
`Set`/object-map state becomes lists and association lists (preserving insertion order,
as JS string-keyed objects do), and JS strings become `String` compared through explicit
character-list functions mirroring JS relational operators on strings.  External helper
modules that are not part of the analysed sources (`@/utils`, `@/utils/errorCodes`, the
`semver` package, cross-store getters) enter as parameters collected in a `Utils`
record, so every theorem is universally quantified over their behaviour.
-/

set_option maxRecDepth 8000

namespace GD

/-! ## JS string primitives

JavaScript compares strings lexicographically by code unit.  The core `String`
operations of this toolchain do not reduce well in the kernel, so the embedding works
on `String.data` character lists directly. -/

/-- Lexicographic comparison of character lists by code point, the semantics of the
JS relational operators on strings (for the basic-plane strings appearing here). -/
def charListCompare : List Char → List Char → Ordering
  | [], [] => .eq
  | [], _ :: _ => .lt
  | _ :: _, [] => .gt
  | a :: as, b :: bs =>
    if a.toNat < b.toNat then .lt
    else if b.toNat < a.toNat then .gt
    else charListCompare as bs

/-- JS string comparison (`<`, `>`, `<=` on two strings). -/
def jsStrCompare (a b : String) : Ordering :=
  charListCompare a.data b.data

/-- JS `a <= b` on strings. -/
def jsStrLe (a b : String) : Bool :=
  !(jsStrCompare a b == .gt)

/-- JS `a < b` on strings. -/
def jsStrLt (a b : String) : Bool :=
  jsStrCompare a b == .lt

/-- Prefix test on character lists (for the `/^subs:\/\/shoots/`-style regexes of
`lib/io.js`, which are all anchored literal prefixes). -/
def charListIsPrefix : List Char → List Char → Bool
  | [], _ => true
  | _ :: _, [] => false
  | a :: as, b :: bs => a == b && charListIsPrefix as bs

/-- String prefix test. -/
def strStartsWith (s pre : String) : Bool :=
  charListIsPrefix pre.data s.data

/-- Substring test on character lists; `charListIsInfix needle hay` holds iff `needle`
occurs contiguously in `hay` (JS `String.prototype.includes` / lodash `includes` on
strings). -/
def charListIsInfix : List Char → List Char → Bool
  | needle, [] => needle.isEmpty
  | needle, c :: cs => charListIsPrefix needle (c :: cs) || charListIsInfix needle cs

/-- JS `hay.includes(needle)`. -/
def strIncludes (hay needle : String) : Bool :=
  charListIsInfix needle.data hay.data

/-- ASCII lower-casing of one character (`String.prototype.toLowerCase` restricted to
the ASCII identifiers this store sorts on). -/
def charToLower (c : Char) : Char :=
  if 'A' ≤ c && c ≤ 'Z' then Char.ofNat (c.toNat + 32) else c

/-- Lodash `toLower` of a string value. -/
def jsToLower (s : String) : String :=
  String.mk (s.data.map charToLower)

/-- Parses an unsigned decimal digit string; `none` on the empty list or any
non-digit.  This models the JS `Number(string)` coercion for the unsigned integer
strings produced by this store (the only strings it ever compares against numbers). -/
def digitsToNat? : List Char → Option Nat → Option Nat
  | [], acc => acc
  | c :: cs, acc =>
    if c.isDigit then digitsToNat? cs (some ((acc.getD 0) * 10 + (c.toNat - '0'.toNat)))
    else none

/-- JS numeric coercion of a string, restricted to unsigned decimal literals. -/
def jsStringToNumber (s : String) : Option Int :=
  (digitsToNat? s.data none).map Int.ofNat

/-- Lodash `padStart(value, 2, '0')` applied to an already stringified value. -/
def padStartTwoZero (s : String) : String :=
  if s.length ≥ 2 then s else String.mk (List.replicate (2 - s.length) '0') ++ s

/-! ## encodeURIComponent

`lib/watches/shoots.js` and `lib/io.js` pass namespace/name through
`encodeURIComponent` before splicing them into room names. -/

/-- Characters `encodeURIComponent` leaves unescaped: alphanumerics and
`- _ . ! ~ * ' ( )`. -/
def isUriUnreserved (c : Char) : Bool :=
  c.isAlphanum || c ∈ ['-', '_', '.', '!', '~', '*', Char.ofNat 39, '(', ')']

/-- UTF-8 bytes of a single code point. -/
def utf8Bytes (n : Nat) : List Nat :=
  if n < 0x80 then [n]
  else if n < 0x800 then [0xC0 + n / 64, 0x80 + n % 64]
  else if n < 0x10000 then [0xE0 + n / 4096, 0x80 + (n / 64) % 64, 0x80 + n % 64]
  else [0xF0 + n / 262144, 0x80 + (n / 4096) % 64, 0x80 + (n / 64) % 64, 0x80 + n % 64]

/-- Upper-case hexadecimal digit. -/
def hexDigit (n : Nat) : Char :=
  if n < 10 then Char.ofNat ('0'.toNat + n) else Char.ofNat ('A'.toNat + n - 10)

/-- Percent-escapes one byte. -/
def percentByte (b : Nat) : List Char :=
  ['%', hexDigit (b / 16), hexDigit (b % 16)]

/-- JS `encodeURIComponent`. -/
def encodeURIComponent (s : String) : String :=
  String.mk (s.data.flatMap fun c =>
    if isUriUnreserved c then [c] else (utf8Bytes c.toNat).flatMap percentByte)

/-! ## JS sort values

Lodash `orderBy` compares criteria with `compareAscending`, which applies the raw JS
relational operators: number/number and string/string compare directly, a
number/string pair numerically coerces the string, and `undefined` sorts after
everything. -/

/-- A JS value used as a sort criterion by this store: a number, a string, or
`undefined`. -/
inductive JSVal where
  | num (n : Int)
  | str (s : String)
  | undef
deriving DecidableEq, Repr

/-- Lodash `compareAscending` restricted to the values this store produces.  A
number/string comparison coerces the string (`NaN` comparisons, which only arise for
non-numeric strings, make both `<` and `>` false, yielding `eq`). -/
def compareAscending : JSVal → JSVal → Ordering
  | .num a, .num b => if a < b then .lt else if b < a then .gt else .eq
  | .str a, .str b => jsStrCompare a b
  | .num a, .str b =>
    match jsStringToNumber b with
    | some n => if a < n then .lt else if n < a then .gt else .eq
    | none => .eq
  | .str a, .num b =>
    match jsStringToNumber a with
    | some n => if n < b then .lt else if b < n then .gt else .eq
    | none => .eq
  | .undef, .undef => .eq
  | .undef, _ => .gt
  | _, .undef => .lt

/-! ## Stable sort

Lodash `orderBy` and modern `Array.prototype.sort` are stable.  This insertion sort
processes the list left to right and inserts each element after all elements that
compare equal to it, which is exactly stability. -/

/-- Inserts `a` before the first element strictly greater than it. -/
def insertSorted (cmp : α → α → Ordering) (a : α) : List α → List α
  | [] => [a]
  | b :: l =>
    match cmp a b with
    | .lt => a :: b :: l
    | _ => b :: insertSorted cmp a l

/-- Stable sort by a three-way comparator. -/
def stableSortBy (cmp : α → α → Ordering) (l : List α) : List α :=
  l.foldl (fun acc a => insertSorted cmp a acc) []

/-! ## Data model

The fields of a shoot resource that the analysed code reads.  Optional JS fields
(`undefined` when absent) become `Option`. -/

/-- `status.lastOperation` of a shoot (`progress` is a percentage, `state` a string
such as `"Failed"`). -/
structure Operation where
  progress : Option Nat := none
  opState : Option String := none
deriving DecidableEq, Repr

/-- One entry of `status.lastErrors`. -/
structure LastError where
  codes : List String := []
deriving DecidableEq, Repr

/-- One entry of `status.conditions`. -/
structure Condition where
  condStatus : String := ""
  lastTransitionTime : String := ""
  codes : List String := []
deriving DecidableEq, Repr

/-- The `status` sub-object of a shoot. -/
structure ShootStatus where
  lastOperation : Option Operation := none
  lastErrors : List LastError := []
  conditions : List Condition := []
  hibernated : Bool := false
deriving DecidableEq, Repr

/-- The `metadata` sub-object of a shoot. -/
structure Metadata where
  namespc : String := ""
  name : String := ""
  uid : String := ""
  resourceVersion : String := ""
  creationTimestamp : String := ""
  annotations : List (String × String) := []
deriving DecidableEq, Repr

/-- The `spec` fields the store reads for sorting/filtering. -/
structure ShootSpec where
  purpose : Option String := none
  kubernetesVersion : Option String := none
  providerType : Option String := none
  region : Option String := none
  seedName : Option String := none
deriving DecidableEq, Repr

/-- A shoot resource object. -/
structure Shoot where
  metadata : Metadata
  spec : ShootSpec := {}
  status : ShootStatus := {}
deriving DecidableEq, Repr

/-- A watch change-event type. -/
inductive EventType where
  | added
  | modified
  | deleted
deriving DecidableEq, Repr

/-- A `(type, object)` change event. -/
structure Event where
  type : EventType
  object : Shoot
deriving DecidableEq, Repr

/-- External collaborators of the analysed sources: the helpers of `@/utils` and
`@/utils/errorCodes` (not part of the analysed files), the `semver` package, the
lodash deep-diff driven branch of `isSortRequired` (lines reading
`difference(oldItem, newItem)`), and cross-store getters (`ticketLabels`,
`latestUpdatedTicketByNameAndNamespace`, `ticketsByNamespaceAndName`,
project-name resolution).  All theorems are universally quantified over this record,
so nothing proved here depends on a particular implementation of these helpers. -/
structure Utils where
  isReconciliationDeactivated : Metadata → Bool
  isShootStatusHibernated : ShootStatus → Bool
  errorCodesFromLastErrors : List LastError → List String
  errorCodesFromConditions : List Condition → List String
  isUserError : List String → Bool
  shootHasIssue : Shoot → Bool
  isStatusProgressing : Metadata → Bool
  getCreatedBy : Metadata → Option String
  getProjectName : Metadata → Option String
  ticketLabelsText : Metadata → Option String
  latestUpdatedTicket : Metadata → Option String
  ticketLabelNamesForCluster : Metadata → List (List String)
  isSortRequiredByDiff : String → Shoot → Shoot → Bool
  semverCompare : Option String → Option String → Ordering

/-- The store key of a shoot: `namespace + '/' + name` (`getKey`). -/
def getKey (m : Metadata) : String :=
  m.namespc ++ "/" ++ m.name

/-- JS template-literal coercion: `undefined` prints as `"undefined"`. -/
def jsTemplateStr : Option String → String
  | some s => s
  | none => "undefined"

/-- Embeds `getRawVal` (shoots store) for the string-valued columns.  The
`lastOperation` branch of the source returns the `status.lastOperation` object and is
consumed only by `getSortVal`, which reads that field directly in this embedding.  The
final branch is the source's `get(metadata, column)` dynamic field access over the
metadata fields modelled here.  (The split-store revision differs only in resolving
the `project` column through `rootGetters.projectNameByNamespace`; both resolutions
are the abstract `Utils.getProjectName`.) -/
def getRawVal (u : Utils) (item : Shoot) (column : String) : Option String :=
  match column with
  | "purpose" => item.spec.purpose
  | "createdAt" => some item.metadata.creationTimestamp
  | "createdBy" => u.getCreatedBy item.metadata
  | "project" => u.getProjectName item.metadata
  | "k8sVersion" => item.spec.kubernetesVersion
  | "infrastructure" =>
    some (jsTemplateStr item.spec.providerType ++ " " ++ jsTemplateStr item.spec.region)
  | "seed" => item.spec.seedName
  | "ticketLabels" => u.ticketLabelsText item.metadata
  | "name" => some item.metadata.name
  | "namespace" => some item.metadata.namespc
  | "uid" => some item.metadata.uid
  | "creationTimestamp" => some item.metadata.creationTimestamp
  | _ => none

/-- JS truthiness of `operation.progress` (`0` and `undefined` are falsy). -/
def progressTruthy : Option Nat → Bool
  | some p => p != 0
  | none => false

/-- Embeds the `lastOperation` case of `getSortVal`: the priority bucket consulted
when sorting by the `lastOperation` column.  Buckets are JS numbers except the
in-progress ones, which are strings `"1" ++ progress`, `"3" ++ progress`,
`"6" ++ progress` with the progress percentage zero-padded to two digits. -/
def getSortValLastOperation (u : Utils) (item : Shoot) : JSVal :=
  let operation := item.status.lastOperation.getD {}
  let inProgress :=
    !(operation.progress == some 100) && !(operation.opState == some "Failed")
      && progressTruthy operation.progress
  let lastErrors := item.status.lastErrors
  let isError := operation.opState == some "Failed" || !lastErrors.isEmpty
  let allErrorCodes := u.errorCodesFromLastErrors lastErrors
  let userError := u.isUserError allErrorCodes
  let ignoredFromReconciliation := u.isReconciliationDeactivated item.metadata
  if ignoredFromReconciliation then
    if isError then .num 400 else .num 450
  else if userError && !inProgress then .num 200
  else if userError && inProgress then
    .str ("3" ++ padStartTwoZero (Nat.repr (operation.progress.getD 0)))
  else if isError && !inProgress then .num 0
  else if isError && inProgress then
    .str ("1" ++ padStartTwoZero (Nat.repr (operation.progress.getD 0)))
  else if inProgress then
    .str ("6" ++ padStartTwoZero (Nat.repr (operation.progress.getD 0)))
  else if u.isShootStatusHibernated item.status then .num 500
  else .num 700

/-- Embeds `getSortVal` (shoots store). -/
def getSortVal (u : Utils) (item : Shoot) (sortBy : String) : JSVal :=
  match sortBy with
  | "purpose" =>
    match getRawVal u item "purpose" with
    | some "infrastructure" => .num 0
    | some "production" => .num 1
    | some "development" => .num 2
    | some "evaluation" => .num 3
    | _ => .num 4
  | "lastOperation" => getSortValLastOperation u item
  | "readiness" =>
    let errorConditions := item.status.conditions.filter (fun c => c.condStatus != "True")
    let times := stableSortBy jsStrCompare (errorConditions.map (·.lastTransitionTime))
    match times.head? with
    | some t => .str t
    | none => .undef
  | "ticket" =>
    match u.latestUpdatedTicket item.metadata with
    | some t => .str t
    | none => .undef
  | _ => .str (jsToLower ((getRawVal u item sortBy).getD ""))

/-- The name-ascending tie-break comparator `sortbyNameAsc` of `getSortedKeys`. -/
def sortbyNameAsc (u : Utils) (a b : Shoot) : Ordering :=
  jsStrCompare ((getRawVal u a "name").getD "") ((getRawVal u b "name").getD "")

/-- Lodash `orderBy(items, [criterion, 'metadata.name'], [sortOrder, 'asc'])`:
compare the primary criteria (inverted when descending), break ties by name
ascending. -/
def compareCriteria (sortDesc : Bool) (a b : JSVal × String) : Ordering :=
  let result := compareAscending a.1 b.1
  let result := if sortDesc then result.swap else result
  match result with
  | .eq => jsStrCompare a.2 b.2
  | o => o

/-- JS falsiness of a readiness sort value (`undefined` or the empty string). -/
def jsValFalsy : JSVal → Bool
  | .undef => true
  | .str s => s.isEmpty
  | .num n => n == 0

/-- Embeds `getSortedKeys` (shoots store): full re-sort of all items of the keyed
collection, returning the sorted key sequence.  `k8sVersion` and `readiness` have
dedicated comparators; every other column goes through
`orderBy` on `(getSortVal, metadata.name)`.  The semver comparison itself is the
external `semver` package (`Utils.semverCompare`). -/
def getSortedKeys (u : Utils) (sortBy : Option String) (sortDesc : Bool)
    (items : List Shoot) : List String :=
  match sortBy with
  | none => items.map (fun i => getKey i.metadata)
  | some sb =>
    let sorted : List Shoot :=
      match sb with
      | "k8sVersion" =>
        stableSortBy (fun (a b : Shoot) =>
          match u.semverCompare (getRawVal u a "k8sVersion") (getRawVal u b "k8sVersion") with
          | .gt => if sortDesc then .lt else .gt
          | .lt => if sortDesc then .gt else .lt
          | .eq => sortbyNameAsc u a b) items
      | "readiness" =>
        stableSortBy (fun (a b : Shoot) =>
          let readinessA := getSortVal u a sb
          let readinessB := getSortVal u b sb
          if readinessA == readinessB then sortbyNameAsc u a b
          else if jsValFalsy readinessA then .gt
          else if jsValFalsy readinessB then .lt
          else if compareAscending readinessA readinessB == Ordering.gt then
            (if sortDesc then .lt else .gt)
          else (if sortDesc then .gt else .lt)) items
      | _ =>
        stableSortBy (fun (a b : Shoot) =>
          compareCriteria sortDesc (getSortVal u a sb, a.metadata.name)
            (getSortVal u b sb, b.metadata.name)) items
    sorted.map (fun i => getKey i.metadata)

/-! ## Filtering -/

/-- The relevant fields of the root store state (`rootState`): the active namespace
(`"_all"` for the all-namespaces view), the issues-only toggle, and the configured
ticket label suppression list (`cfg.ticket.hideClustersWithLabels`). -/
structure RootCtx where
  namespc : String := ""
  onlyShootsWithIssues : Bool := false
  hideClustersWithLabels : Option (List String) := none

/-- The named boolean list filters (`state.shootListFilters`). -/
structure ShootListFilters where
  progressing : Bool := false
  userIssues : Bool := false
  deactivatedReconciliation : Bool := false
  hideTicketsWithLabel : Bool := false
deriving DecidableEq, Repr

/-- A shoot with empty fields, standing in for the `{}` defaults the source's
lodash `get(..., {})` chains produce on a missing item (unreachable in the flows
verified here, where every key of the sorted sequence is present in the keyed
collection). -/
def emptyShoot : Shoot :=
  { metadata := {} }

/-- Association-list lookup of a key in the keyed collection. -/
def lookupItem (shoots : List (String × Shoot)) (key : String) : Option Shoot :=
  (shoots.find? (fun kv => kv.1 == key)).map (·.2)

/-- The free-text search predicate of `getFilteredKeys`: an item matches if any
whitespace-split token is a substring of any of the eight listed columns. -/
def searchPredicate (u : Utils) (words : List String) (item : Shoot) : Bool :=
  words.any (fun value =>
    ["name", "infrastructure", "seed", "project", "createdBy", "purpose", "k8sVersion",
      "ticketLabels"].any (fun column =>
        match getRawVal u item column with
        | some s => strIncludes s value
        | none => false))

/-- The `hideTicketsWithLabel` filter pass: keep the item when no suppression list is
configured, when it has no tickets, or when at least one of its tickets carries none
of the suppressed labels. -/
def hideTicketsPredicate (u : Utils) (ctx : RootCtx) (item : Shoot) : Bool :=
  match ctx.hideClustersWithLabels with
  | none => true
  | some hideLabels =>
    let ticketsForCluster := u.ticketLabelNamesForCluster item.metadata
    if ticketsForCluster.isEmpty then true
    else
      (ticketsForCluster.filter (fun labelNames =>
        !(hideLabels.any (fun h => labelNames.contains h)))).length > 0

/-- Embeds `getFilteredKeys` (shoots store): the free-text search pass followed by the
four boolean filter passes, the latter only on the all-namespaces issues-only view. -/
def getFilteredKeys (u : Utils) (ctx : RootCtx) (searchValue : Option (List String))
    (filters : Option ShootListFilters) (shoots : List (String × Shoot))
    (sortedKeys : List String) : List String :=
  let keys := sortedKeys
  let keys :=
    match searchValue with
    | some words =>
      keys.filter (fun key => searchPredicate u words ((lookupItem shoots key).getD emptyShoot))
    | none => keys
  if ctx.namespc == "_all" && ctx.onlyShootsWithIssues then
    let getFlag := fun (f : ShootListFilters → Bool) => (filters.map f).getD false
    let keys :=
      if getFlag (·.progressing) then
        keys.filter (fun key =>
          !(u.isStatusProgressing ((lookupItem shoots key).getD emptyShoot).metadata))
      else keys
    let keys :=
      if getFlag (·.userIssues) then
        keys.filter (fun key =>
          let item := (lookupItem shoots key).getD emptyShoot
          !(u.isUserError (u.errorCodesFromLastErrors item.status.lastErrors))
            && !(u.isUserError (u.errorCodesFromConditions item.status.conditions)))
      else keys
    let keys :=
      if getFlag (·.deactivatedReconciliation) then
        keys.filter (fun key =>
          !(u.isReconciliationDeactivated ((lookupItem shoots key).getD emptyShoot).metadata))
      else keys
    let keys :=
      if getFlag (·.hideTicketsWithLabel) then
        keys.filter (fun key => hideTicketsPredicate u ctx ((lookupItem shoots key).getD emptyShoot))
      else keys
    keys
  else keys

/-! ## The list-state engine (single-file store revision, `modules/shoots.js`) -/

/-- The client subscription descriptor (`{namespace?, name?, unhealthy?}`).  Fields
absent from the JS object are `none`/`false`; `setSubscription` only ever sets
`unhealthy` to `true` or leaves the key absent. -/
structure SubscriptionDesc where
  namespc : Option String := none
  name : Option String := none
  unhealthy : Bool := false
deriving DecidableEq, Repr

/-- The module state of `modules/shoots.js` (the fields the verified operations
touch).  `shoots` is the keyed collection as an insertion-ordered association list,
`sortParams` carries the vuetify `(sortBy, sortDesc)` arrays. -/
structure ShootsState where
  shoots : List (String × Shoot) := []
  sortedShoots : List String := []
  filteredShoots : List String := []
  events : List Event := []
  sortRequired : Bool := false
  sortParamsBy : List String := []
  sortParamsDesc : List Bool := []
  hasSortParams : Bool := false
  searchValue : Option (List String) := none
  shootListFilters : Option ShootListFilters := none
  subscription : Option SubscriptionDesc := none
deriving DecidableEq, Repr

/-- `head(get(state, 'sortParams.sortBy'))`: the active sort column, if any. -/
def activeSortBy (s : ShootsState) : Option String :=
  if s.hasSortParams then s.sortParamsBy.head? else none

/-- `head(get(state, 'sortParams.sortDesc', [false]))` coerced to a boolean. -/
def activeSortDesc (s : ShootsState) : Bool :=
  if s.hasSortParams then (s.sortParamsDesc.head?).getD false else false

/-- `getItemByKey` of the store. -/
def getItemByKey (s : ShootsState) (key : String) : Option Shoot :=
  lookupItem s.shoots key

/-- Replaces the value stored at `key`, keeping its position (`Vue.set` on an
existing key). -/
def setItem (shoots : List (String × Shoot)) (key : String) (v : Shoot) :
    List (String × Shoot) :=
  shoots.map (fun kv => if kv.1 == key then (key, v) else kv)

/-- Embeds `isSortRequired`: columns that cannot change never require a re-sort,
`lastOperation` always does, and any other column defers to the deep-diff check on
the changed fields (external `difference`/`getRawVal` composition,
`Utils.isSortRequiredByDiff`).  With no sort params, `head(undefined)` is
`undefined`, which falls through every listed case to a `get(metadata, undefined)`
that is always `undefined`, hence `false`. -/
def isSortRequired (u : Utils) (sortBy : Option String) (newItem oldItem : Shoot) : Bool :=
  match sortBy with
  | none => false
  | some c =>
    if ["name", "infrastructure", "project", "createdAt", "createdBy",
        "ticketLabels"].contains c then false
    else if c == "lastOperation" then true
    else u.isSortRequiredByDiff c oldItem newItem

/-- Lodash `assign(oldItem, newItem)`: field-level overwrite of the stored object
with the fields of the incoming one.  Every field of the embedded record is present
on the incoming object, so the result carries exactly the new fields. -/
def jsAssign (_oldItem newItem : Shoot) : Shoot :=
  newItem

/-- Embeds the `PUT_ITEM` mutation: insert an unknown key (marking a re-sort
required), ignore an event whose `resourceVersion` equals the stored one, and
otherwise merge, marking a re-sort only when the delta affects the active sort
column. -/
def PUT_ITEM (u : Utils) (s : ShootsState) (newItem : Shoot) : ShootsState :=
  let key := getKey newItem.metadata
  match getItemByKey s key with
  | some oldItem =>
    if oldItem.metadata.resourceVersion ≠ newItem.metadata.resourceVersion then
      let s :=
        if isSortRequired u (activeSortBy s) newItem oldItem then
          { s with sortRequired := true }
        else s
      { s with shoots := setItem s.shoots key (jsAssign oldItem newItem) }
    else s
  | none =>
    { s with sortRequired := true, shoots := s.shoots ++ [(key, newItem)] }

/-- Embeds the `DELETE_ITEM` mutation: remove a present key and mark a re-sort
required; a miss is a no-op. -/
def DELETE_ITEM (s : ShootsState) (md : Metadata) : ShootsState :=
  let key := getKey md
  match getItemByKey s key with
  | some _ =>
    { s with sortRequired := true, shoots := s.shoots.eraseP (fun kv => kv.1 == key) }
  | none => s

/-- Embeds the `CLEAR_ALL` mutation of `modules/shoots.js` (this revision clears the
keyed collection and the derived sequences; it does not touch the pending events or
the `sortRequired` flag). -/
def CLEAR_ALL (s : ShootsState) : ShootsState :=
  { s with shoots := [], sortedShoots := [], filteredShoots := [] }

/-- Embeds the `ADD_EVENT` mutation. -/
def ADD_EVENT (s : ShootsState) (e : Event) : ShootsState :=
  { s with events := s.events ++ [e] }

/-- Embeds `updateSortedShoots`: recompute the sorted key sequence, then the
filtered key sequence on top of it. -/
def updateSortedShoots (u : Utils) (ctx : RootCtx) (s : ShootsState) : ShootsState :=
  let sortedKeys := getSortedKeys u (activeSortBy s) (activeSortDesc s)
    (s.shoots.map (fun kv => kv.2))
  let s : ShootsState := { s with sortedShoots := sortedKeys }
  { s with
    filteredShoots :=
      getFilteredKeys u ctx s.searchValue s.shootListFilters s.shoots s.sortedShoots }

/-- Embeds `processEvents`: drain the pending event queue, apply each event to the
keyed collection (ADDED/MODIFIED events are dropped on the issues-only view when the
object has no issue), then re-derive the sequences if a re-sort became required.
The source's final `commit('SET_SORT_REQUIRED', false)` names a mutation that does
not exist in this module's mutation table, so it is a no-op and the flag stays
set. -/
def processEvents (u : Utils) (ctx : RootCtx) (s : ShootsState) : ShootsState :=
  let onlyShootsWithIssues := ctx.namespc == "_all" && ctx.onlyShootsWithIssues
  let events := s.events
  let s := { s with events := [] }
  let s := events.foldl (fun s ev =>
    match ev.type with
    | .added | .modified =>
      if !onlyShootsWithIssues || u.shootHasIssue ev.object then PUT_ITEM u s ev.object else s
    | .deleted => DELETE_ITEM s ev.object.metadata) s
  if s.sortRequired then updateSortedShoots u ctx s else s

/-- The wait of the `throttledProcessEvents` lodash throttle, in milliseconds. -/
def shootEventsThrottleMillis : Nat := 3000

/-- Embeds the `handleEvent` action: push the event onto the queue, then invoke the
throttled `processEvents`.  Lodash `throttle` invokes the wrapped function at the
leading edge of an idle window and at the trailing edge of a busy one;
`throttleInvokes` says whether this call is such an edge (`false` for any call made
within `shootEventsThrottleMillis` of the last invocation). -/
def handleEvent (u : Utils) (ctx : RootCtx) (s : ShootsState) (e : Event)
    (throttleInvokes : Bool) : ShootsState :=
  let s := ADD_EVENT s e
  if throttleInvokes then processEvents u ctx s else s

/-- Lodash `keyBy(items, getKey)`: later items win on key collisions, keys keep first
insertion order. -/
def keyBy (items : List Shoot) : List (String × Shoot) :=
  items.foldl (fun acc item =>
    let key := getKey item.metadata
    if (acc.find? (fun kv => kv.1 == key)).isSome then setItem acc key item
    else acc ++ [(key, item)]) []

/-- Embeds the `subscribed` action of `modules/shoots.js`: when a subscription is
active, clear the collection and the queue, fetch the scope's items (`fetched`, the
REST response), receive them and re-derive the sequences.  With no active
subscription the action does nothing. -/
def shootsSubscribedAction (u : Utils) (ctx : RootCtx) (s : ShootsState)
    (fetched : List Shoot) : ShootsState :=
  match s.subscription with
  | none => s
  | some _ =>
    let s := CLEAR_ALL s
    let s := { s with events := [] }
    let s := { s with shoots := keyBy fetched }
    updateSortedShoots u ctx s

/-- Embeds the `unsubscribed` action (`commit('CLEAR_ALL')`). -/
def shootsUnsubscribedAction (s : ShootsState) : ShootsState :=
  CLEAR_ALL s

/-- Embeds the `SUBSCRIBE` mutation. -/
def SUBSCRIBE_MUT (s : ShootsState) (sub : SubscriptionDesc) : ShootsState :=
  { s with subscription := some sub }

/-- Embeds the `UNSUBSCRIBE` mutation. -/
def UNSUBSCRIBE_MUT (s : ShootsState) : ShootsState :=
  { s with subscription := none }

/-- Embeds the `setSubscription` action: augment a non-null descriptor with the
issues-only flag (all-namespaces view) or the current namespace, then commit
`SUBSCRIBE`; a null descriptor commits `UNSUBSCRIBE`. -/
def setSubscriptionAction (ctx : RootCtx) (s : ShootsState)
    (desc : Option SubscriptionDesc) : ShootsState :=
  match desc with
  | some d =>
    let d :=
      if ctx.namespc == "_all" then
        (if ctx.onlyShootsWithIssues then { d with unhealthy := true } else d)
      else { d with namespc := some ctx.namespc }
    SUBSCRIBE_MUT s d
  | none => UNSUBSCRIBE_MUT s

/-! ## The list-state engine (split-store revision, `shoots/actions.js` +
`shoots/mutations.js`) -/

/-- The module state of the split-store revision (its `CLEAR_ALL` resets more
fields; events are not queued in the state, and the re-sort flag is a local of
`handleEvents`). -/
structure ShootsStateV2 where
  shoots : List (String × Shoot) := []
  sortedShoots : List String := []
  filteredShoots : List String := []
  sortParamsBy : List String := []
  sortParamsDesc : List Bool := []
  hasSortParams : Bool := false
  searchValue : Option (List String) := none
  shootListFilters : Option ShootListFilters := none
deriving DecidableEq, Repr

/-- The active sort column of the split-store revision. -/
def activeSortByV2 (s : ShootsStateV2) : Option String :=
  if s.hasSortParams then s.sortParamsBy.head? else none

/-- The active sort direction of the split-store revision. -/
def activeSortDescV2 (s : ShootsStateV2) : Bool :=
  if s.hasSortParams then (s.sortParamsDesc.head?).getD false else false

/-- `getItemByKey` of the split-store revision. -/
def getItemByKeyV2 (s : ShootsStateV2) (key : String) : Option Shoot :=
  lookupItem s.shoots key

/-- Embeds the `HANDLE_EVENTS` mutation: unconditional `Vue.set`/`Vue.delete` per
already-filtered event. -/
def HANDLE_EVENTS (s : ShootsStateV2) (events : List Event) : ShootsStateV2 :=
  { s with
    shoots := events.foldl (fun shoots ev =>
      let key := getKey ev.object.metadata
      match ev.type with
      | .added | .modified =>
        if (shoots.find? (fun kv => kv.1 == key)).isSome then setItem shoots key ev.object
        else shoots ++ [(key, ev.object)]
      | .deleted => shoots.eraseP (fun kv => kv.1 == key)) s.shoots }

/-- Embeds `updateSortedShoots` of the split-store revision. -/
def updateSortedShootsV2 (u : Utils) (ctx : RootCtx) (s : ShootsStateV2) : ShootsStateV2 :=
  let sortedKeys := getSortedKeys u (activeSortByV2 s) (activeSortDescV2 s)
    (s.shoots.map (fun kv => kv.2))
  let s : ShootsStateV2 := { s with sortedShoots := sortedKeys }
  { s with
    filteredShoots :=
      getFilteredKeys u ctx s.searchValue s.shootListFilters s.shoots s.sortedShoots }

/-- The accumulator of the `handleEvents` filter predicate of the split-store
revision: the kept events, the `(object, item)` modification pairs, and the local
`sortRequired` flag. -/
structure HandleEventsAcc where
  kept : List Event := []
  modifications : List (Shoot × Shoot) := []
  sortRequired : Bool := false
deriving Repr

/-- The filter predicate of `handleEvents` (split-store revision), as one fold step
over the batch: it decides whether the event is kept and records modification pairs
and the re-sort flag as the source's predicate does through side effects. -/
def handleEventsPredicateStep (u : Utils) (onlyShootsWithIssues : Bool)
    (s : ShootsStateV2) (acc : HandleEventsAcc) (ev : Event) : HandleEventsAcc :=
  let key := getKey ev.object.metadata
  let item := getItemByKeyV2 s key
  match ev.type with
  | .added | .modified =>
    if !onlyShootsWithIssues || u.shootHasIssue ev.object then
      match item with
      | some item =>
        if ev.object.metadata.resourceVersion ≠ item.metadata.resourceVersion then
          { acc with
            kept := acc.kept ++ [ev],
            modifications := acc.modifications ++ [(ev.object, item)] }
        else acc
      | none => { acc with kept := acc.kept ++ [ev], sortRequired := true }
    else acc
  | .deleted =>
    match item with
    | some _ => { acc with kept := acc.kept ++ [ev], sortRequired := true }
    | none => acc

/-- Embeds the `handleEvents` action of `shoots/actions.js`: filter the batch
(dropping no-issue events on the issues-only view, duplicate-`resourceVersion`
re-deliveries, and deletes of unknown keys), apply the kept events, then re-sort if
an insert/delete occurred or some modification touches the active sort column. -/
def handleEventsV2 (u : Utils) (ctx : RootCtx) (s : ShootsStateV2)
    (events : List Event) : ShootsStateV2 :=
  let onlyShootsWithIssues := ctx.namespc == "_all" && ctx.onlyShootsWithIssues
  let acc := events.foldl (handleEventsPredicateStep u onlyShootsWithIssues s) {}
  let s := HANDLE_EVENTS s acc.kept
  let sortRequired :=
    if !acc.sortRequired then
      acc.modifications.any (fun m => isSortRequired u (activeSortByV2 s) m.1 m.2)
    else acc.sortRequired
  if sortRequired then updateSortedShootsV2 u ctx s else s

/-! ## Tickets store module -/

/-- The `metadata` of a ticket (issue). -/
structure TicketMeta where
  number : Int := 0
  updated_at : String := ""
deriving DecidableEq, Repr

/-- A ticket of the tickets store (`state.all` entry). -/
structure Ticket where
  metadata : TicketMeta
deriving DecidableEq, Repr

/-- The descending-`updated_at` relation a ticket group is kept sorted by. -/
def ticketGe (a b : Ticket) : Prop :=
  jsStrLe b.metadata.updated_at a.metadata.updated_at = true

instance : DecidableRel ticketGe := fun _ _ => instDecidableEqBool _ _

/-- Lodash `orderBy(items, ['metadata.updated_at'], ['desc'])` of the tickets
module (a stable sort; `List.insertionSort` places earlier elements before
later-arriving equal ones, matching lodash stability). -/
def orderByUpdatedAtTickets (items : List Ticket) : List Ticket :=
  List.insertionSort ticketGe items

/-- Embeds the `PUT_ITEM` mutation of the tickets module: replace the stored item
with the same `metadata.number` in place when the incoming `updated_at` is not
older, drop it otherwise, and append-then-re-sort when the number is unknown. -/
def ticketsPutItem (items : List Ticket) (item : Ticket) : List Ticket :=
  let key := item.metadata.number
  match items.findIdx? (fun t => t.metadata.number == key) with
  | some index =>
    match items[index]? with
    | some oldItem =>
      if jsStrLe oldItem.metadata.updated_at item.metadata.updated_at then
        items.set index item
      else items
    | none => items
  | none => orderByUpdatedAtTickets (items ++ [item])

/-- Embeds the `DELETE_ITEM` mutation of the tickets module. -/
def ticketsDeleteItem (items : List Ticket) (item : Ticket) : List Ticket :=
  let key := item.metadata.number
  match items.findIdx? (fun t => t.metadata.number == key) with
  | some index => items.eraseIdx index
  | none => items

/-! ## Comments store module -/

/-- The `metadata` of a ticket comment. -/
structure CommentMeta where
  id : Int := 0
  number : Int := 0
  updated_at : String := ""
deriving DecidableEq, Repr

/-- A comment of the comments store. -/
structure Comment where
  metadata : CommentMeta
deriving DecidableEq, Repr

/-- The descending-`updated_at` relation a comment group is kept sorted by. -/
def commentGe (a b : Comment) : Prop :=
  jsStrLe b.metadata.updated_at a.metadata.updated_at = true

instance : DecidableRel commentGe := fun _ _ => instDecidableEqBool _ _

/-- Lodash `orderBy(items, ['metadata.updated_at'], ['desc'])` of the comments
module. -/
def orderByUpdatedAtComments (items : List Comment) : List Comment :=
  List.insertionSort commentGe items

/-- Replaces the group stored under `number`, keeping its position. -/
def setGroup (all : List (Int × List Comment)) (number : Int) (items : List Comment) :
    List (Int × List Comment) :=
  all.map (fun kv => if kv.1 == number then (number, items) else kv)

/-- Embeds the `PUT_ITEM` mutation of the comments module: groups are keyed by
ticket `number`, entries within a group by comment `id`; same in-place-replace /
drop / append-and-re-sort logic as tickets, plus creation of a fresh group. -/
def commentsPutItem (all : List (Int × List Comment)) (item : Comment) :
    List (Int × List Comment) :=
  let number := item.metadata.number
  match List.lookup number all with
  | none => all ++ [(number, [item])]
  | some items =>
    let key := item.metadata.id
    match items.findIdx? (fun c => c.metadata.id == key) with
    | some index =>
      match items[index]? with
      | some oldItem =>
        if jsStrLe oldItem.metadata.updated_at item.metadata.updated_at then
          setGroup all number (items.set index item)
        else all
      | none => all
    | none => setGroup all number (orderByUpdatedAtComments (items ++ [item]))

/-- Embeds the `DELETE_ITEM` mutation of the comments module. -/
def commentsDeleteItem (all : List (Int × List Comment)) (item : Comment) :
    List (Int × List Comment) :=
  let number := item.metadata.number
  match List.lookup number all with
  | none => all
  | some items =>
    let key := item.metadata.id
    match items.findIdx? (fun c => c.metadata.id == key) with
    | some index => setGroup all number (items.eraseIdx index)
    | none => all

/-! ## Server side: the socket.io subscription handler (`lib/io.js`) -/

/-- A project member entry (`spec.members` item). -/
structure ProjectMember where
  kind : String
  name : String
deriving DecidableEq, Repr

/-- A project of the cache (`metadata.name`, `spec.namespace`, `spec.members`). -/
structure Project where
  name : String
  namespc : String
  members : List ProjectMember
deriving DecidableEq, Repr

/-- The authenticated socket user. -/
structure User where
  id : String
  isAdmin : Bool
deriving DecidableEq, Repr

/-- `cache.findProjectByNamespace`. -/
def findProjectByNamespace (projects : List Project) (ns : String) : Option Project :=
  projects.find? (fun p => p.namespc == ns)

/-- Embeds `isMemberOfNamespace`: admins always pass; otherwise the project of the
namespace must list a `User`-kind member with the caller's id (a missing project
makes the lodash `findIndex` chain yield `-1`, hence `false`). -/
def isMemberOfNamespace (projects : List Project) (user : User) (ns : String) : Bool :=
  if user.isAdmin then true
  else
    match findProjectByNamespace projects ns with
    | none => false
    | some p =>
      (p.members.findIdx? (fun m => m.kind == "User" && m.name == user.id)).isSome

/-- Embeds `unsubscribeShoots` / `leaveRooms` with the `/^subs:\/\/shoots/` pattern:
leave every room matching the prefix, never the socket's own id room. -/
def unsubscribeShootsServer (socketId : String) (rooms : List String) : List String :=
  rooms.filter (fun room => room == socketId || !(strStartsWith room "subs://shoots"))

/-- JS falsiness of a `URLSearchParams.get` result (absent key or empty string). -/
def truthyParam : Option String → Option String
  | some "" => none
  | x => x

/-- Embeds `subscribeShoots` (single-namespace scope): a membership check that
throws `Forbidden` before any join, then a join of the cluster room (name given) or
the namespace-wide room. -/
def subscribeShootsServer (projects : List Project) (user : User) (rooms : List String)
    (ns : String) (name : Option String) : List String × Option String :=
  if !(isMemberOfNamespace projects user ns) then
    (rooms, some ("User " ++ user.id ++ " has no authorization for namespace " ++ ns))
  else
    let pathname := "/namespace/" ++ encodeURIComponent ns ++
      (match truthyParam name with
       | some n => "/cluster/" ++ encodeURIComponent n
       | none => "/all-clusters")
    (rooms ++ ["subs://shoots" ++ pathname], none)

/-- Embeds `subscribeShootsAllNamespaces`: admin-only; joins the global
unhealthy-clusters room or the global all-clusters room. -/
def subscribeShootsAllNamespacesServer (user : User) (rooms : List String)
    (unhealthy : Bool) : List String × Option String :=
  if !user.isAdmin then
    (rooms, some ("User " ++ user.id ++ " has no authorization for all namespaces"))
  else
    let pathname := "/all-namespaces" ++
      (if unhealthy then "/unhealthy-clusters" else "/all-clusters")
    (rooms ++ ["subs://shoots" ++ pathname], none)

/-- Embeds the `shoots` case of the socket `subscribe` handler: always leave the old
shoots rooms first, then dispatch on the (falsiness-checked) `namespace` filter
parameter; `unhealthy` is the string comparison `=== 'true'`. -/
def subscribeHandlerShoots (projects : List Project) (user : User) (socketId : String)
    (rooms : List String) (namespaceParam nameParam unhealthyParam : Option String) :
    List String × Option String :=
  let rooms := unsubscribeShootsServer socketId rooms
  match truthyParam namespaceParam with
  | none => subscribeShootsAllNamespacesServer user rooms (unhealthyParam == some "true")
  | some ns => subscribeShootsServer projects user rooms ns nameParam

/-! ## Server side: the shoots watch handler (`lib/watches/shoots.js`) -/

/-- One `io.to(...).to(...).emit('shoots', event)` call: the targeted rooms and the
emitted event. -/
structure Emission where
  rooms : List String
  event : Event
deriving DecidableEq, Repr

/-- Embeds the shoots watch handler registered on the all-namespaces watch: emit the
event to the exact-resource, namespace and global rooms; emit unhealthy objects to
the unhealthy rooms, tracking first-seen uids in the issue set (a `DELETED` of an
already-tracked uid removes it); and for a healthy object whose uid is tracked,
emit a synthetic `DELETED` event to the `/unhealthy`-suffixed rooms and untrack the
uid.  Returns the updated issue set and the emissions in order.  The health
predicate `shootHasIssue` lives in the external `lib/utils`. -/
def shootsWatchHandler (hasIssue : Shoot → Bool) (shootsWithIssues : List String)
    (ev : Event) : List String × List Emission :=
  let object := ev.object
  let uid := object.metadata.uid
  let namespc := encodeURIComponent object.metadata.namespc
  let name := encodeURIComponent object.metadata.name
  let mainEmission : Emission :=
    { rooms := ["subs://shoots/namespace/" ++ namespc ++ "/cluster/" ++ name,
        "subs://shoots/namespace/" ++ namespc ++ "/all-clusters",
        "subs://shoots/all-namespaces/all-clusters"],
      event := ev }
  if hasIssue object then
    let unhealthyEmission : Emission :=
      { rooms := ["subs://shoot/namespace/" ++ namespc ++ "/unhealthy-clusters",
          "subs://shoot/all-namespaces/unhealthy-clusters"],
        event := ev }
    let shootsWithIssues :=
      if !(shootsWithIssues.contains uid) then shootsWithIssues ++ [uid]
      else if ev.type == .deleted then shootsWithIssues.filter (fun x => x ≠ uid)
      else shootsWithIssues
    (shootsWithIssues, [mainEmission, unhealthyEmission])
  else if shootsWithIssues.contains uid then
    let deletedEvent : Event := { type := .deleted, object := object }
    let syntheticEmission : Emission :=
      { rooms := ["subs://shoot/namespace/" ++ namespc ++ "/unhealthy",
          "subs://shoot/all-namespaces/unhealthy"],
        event := deletedEvent }
    (shootsWithIssues.filter (fun x => x ≠ uid), [mainEmission, syntheticEmission])
  else (shootsWithIssues, [mainEmission])

/-! ## Client socket plugin (`frontend/src/socket-plugin.js` style `emit` with a
15-second acknowledgement timeout) -/

/-- What the transport produces for one request: an acknowledgement (with or without
a server-provided error message) or no acknowledgement within the deadline. -/
inductive AckOutcome where
  | timeout
  | ack (error : Option String)
deriving DecidableEq, Repr

/-- The error an `emit` rejects with: the `code` property (set only by the local
timeout path) and the message. -/
structure EmitError where
  code : Option String := none
  message : String
deriving DecidableEq, Repr

/-- The acknowledgement deadline of `emit`, in milliseconds (`15 * 1000`). -/
def emitAckTimeoutMillis : Nat := 15 * 1000

/-- Embeds `emit`: a missing acknowledgement within `emitAckTimeoutMillis` rejects
with an `ETIMEDOUT`-coded error; an acknowledgement carrying `error` rejects with a
plain error; an empty acknowledgement resolves. -/
def socketEmit (eventName : String) (outcome : AckOutcome) : Except EmitError Unit :=
  match outcome with
  | .timeout =>
    .error
      { code := some "ETIMEDOUT",
        message := "No acknowledgement received to event " ++ eventName
          ++ " within 15 seconds" }
  | .ack (some e) => .error { message := e }
  | .ack none => .ok ()

/-- Embeds `subscribe`: nothing is emitted on a disconnected socket; otherwise
exactly one request is emitted, consuming exactly one transport outcome — there is
no retry.  A timeout is rethrown with the dedicated subscription-timeout message
(the template stringifies the subscription object as `[object Object]`). -/
def socketSubscribe (connected : Bool) (outcomes : List AckOutcome) :
    Except String Unit × List AckOutcome :=
  if !connected then (.ok (), outcomes)
  else
    match outcomes with
    | [] => (.ok (), [])
    | o :: rest =>
      match socketEmit "subscribe" o with
      | .ok _ => (.ok (), rest)
      | .error err =>
        (.error (if err.code == some "ETIMEDOUT" then "Subscription [object Object] timed out"
          else err.message), rest)

/-- Embeds `unsubscribe` (no connected-guard in the source; same timeout
rewrapping). -/
def socketUnsubscribe (outcomes : List AckOutcome) :
    Except String Unit × List AckOutcome :=
  match outcomes with
  | [] => (.ok (), [])
  | o :: rest =>
    match socketEmit "unsubscribe" o with
    | .ok _ => (.ok (), rest)
    | .error err =>
      (.error (if err.code == some "ETIMEDOUT" then "Unsubscription [object Object] timed out"
        else err.message), rest)

/-! ## Client socket plugin: subscription round trips

The store plugin reacts to the `shoots/SUBSCRIBE` and `shoots/UNSUBSCRIBE`
mutations: `subscribeTopic` serializes the subscription as the filter and emits
`subscribe`, then dispatches `shoots/subscribed`; `unsubscribeTopic` emits
`unsubscribe` and then dispatches `shoots/subscribed` as well — the module's
`unsubscribed` action is not what it dispatches.  The flows below compose the client
action, the server handler (the acknowledgement callback) and the follow-up
dispatch; the transport itself is assumed to deliver request and acknowledgement. -/

/-- Embeds the `setSubscription(descriptor)` round trip for the `shoots` topic: the
`setSubscription` action commits `SUBSCRIBE`, the plugin emits `subscribe` with the
serialized filter, the server handler leaves the old shoots rooms and joins the new
room (or rejects), and an error-free acknowledgement dispatches
`shoots/subscribed`, which refetches (`fetched` is the REST response) and rebuilds
the local state.  A rejected subscribe only raises an alert. -/
def setSubscriptionRoundTrip (projects : List Project) (user : User) (socketId : String)
    (u : Utils) (ctx : RootCtx) (client : ShootsState) (rooms : List String)
    (fetched : List Shoot) (desc : SubscriptionDesc) : ShootsState × List String :=
  let client := setSubscriptionAction ctx client (some desc)
  match client.subscription with
  | some sub =>
    let result := subscribeHandlerShoots projects user socketId rooms
      sub.namespc sub.name (if sub.unhealthy then some "true" else none)
    match result.2 with
    | none => (shootsSubscribedAction u ctx client fetched, result.1)
    | some _ => (client, result.1)
  | none => (client, rooms)

/-- Embeds the `setSubscription(null)` round trip for the `shoots` topic: the action
commits `UNSUBSCRIBE`, the plugin emits `unsubscribe` (the server handler leaves
every `subs://shoots` room) and then dispatches `shoots/subscribed` — which, with no
active subscription, does nothing. -/
def unsubscribeRoundTrip (socketId : String) (u : Utils) (ctx : RootCtx)
    (client : ShootsState) (rooms : List String) : ShootsState × List String :=
  let client := setSubscriptionAction ctx client none
  let rooms := unsubscribeShootsServer socketId rooms
  (shootsSubscribedAction u ctx client [], rooms)

/-! ## Concrete instances for counterexamples and witnesses

The `Utils` functions below are one concrete realization of the external helpers
(annotation-based reconciliation/progress flags, `status.hibernated`, flattened
error codes, a user-error code class, a condition-based health predicate).  The
theorems quantify over `Utils`; these instances only instantiate them. -/

/-- Looks up an annotation value. -/
def annotationValue (m : Metadata) (key : String) : Option String :=
  (m.annotations.find? (fun kv => kv.1 == key)).map (fun kv => kv.2)

/-- A concrete `Utils` realization. -/
def sampleUtils : Utils :=
  { isReconciliationDeactivated := fun m =>
      annotationValue m "shoot.gardener.cloud/ignore" == some "true"
    isShootStatusHibernated := fun st => st.hibernated
    errorCodesFromLastErrors := fun errs => errs.flatMap (fun e => e.codes)
    errorCodesFromConditions := fun conds => conds.flatMap (fun c => c.codes)
    isUserError := fun codes => codes.contains "ERR_CONFIGURATION_PROBLEM"
    shootHasIssue := fun sh => sh.status.conditions.any (fun c => c.condStatus != "True")
    isStatusProgressing := fun m =>
      annotationValue m "shoot.gardener.cloud/operation-progressing" == some "true"
    getCreatedBy := fun m => annotationValue m "gardener.cloud/created-by"
    getProjectName := fun m => some m.namespc
    ticketLabelsText := fun _ => some ""
    latestUpdatedTicket := fun _ => none
    ticketLabelNamesForCluster := fun _ => []
    isSortRequiredByDiff := fun _ _ _ => false
    semverCompare := fun a b => jsStrCompare (a.getD "") (b.getD "") }

/-- A sample healthy shoot. -/
def shootX : Shoot :=
  { metadata := { namespc := "ns1", name := "cl1", uid := "uid-x", resourceVersion := "1" } }

/-- A second sample healthy shoot. -/
def shootY : Shoot :=
  { metadata := { namespc := "ns1", name := "cl2", uid := "uid-y", resourceVersion := "1" } }

/-- A sample shoot with a failing condition. -/
def shootUnhealthy : Shoot :=
  { metadata := { namespc := "ns1", name := "bad", uid := "uid-bad", resourceVersion := "7" },
    status := { conditions := [{ condStatus := "False", lastTransitionTime := "t1" }] } }

/-- A reconciliation-deactivated shoot with a failure (bucket `400`under
`sampleUtils`). -/
def shootDeactivatedFailed : Shoot :=
  { metadata :=
      { namespc := "ns1", name := "aaa", uid := "u-a", resourceVersion := "1",
        annotations := [("shoot.gardener.cloud/ignore", "true")] },
    status := { lastErrors := [{ codes := [] }] } }

/-- A hard-failed, not-in-progress, not-deactivated shoot (bucket `0` under
`sampleUtils`). -/
def shootHardFailed : Shoot :=
  { metadata := { namespc := "ns1", name := "bbb", uid := "u-b", resourceVersion := "1" },
    status := { lastErrors := [{ codes := [] }] } }

/-- A sample project membership cache: `foo@example.org` is a member of the project
of namespace `ns1` only. -/
def memberFoo : ProjectMember :=
  { kind := "User", name := "foo@example.org" }

/-- The project owning namespace `ns1`. -/
def projectNs1 : Project :=
  { name := "proj1", namespc := "ns1", members := [memberFoo] }

/-- The sample project list. -/
def sampleProjects : List Project :=
  [projectNs1]

/-- A non-admin member of `ns1`. -/
def userFoo : User :=
  { id := "foo@example.org", isAdmin := false }

/-- An admin user. -/
def adminUser : User :=
  { id := "admin@example.org", isAdmin := true }

/-- Sample tickets: a group sorted descending by `updated_at`. -/
def ticketA : Ticket :=
  { metadata := { number := 1, updated_at := "3" } }

/-- Second sample ticket. -/
def ticketB : Ticket :=
  { metadata := { number := 2, updated_at := "2" } }

/-- A fresher version of `ticketB`. -/
def ticketB2 : Ticket :=
  { metadata := { number := 2, updated_at := "5" } }

/-- A sample comment. -/
def commentA : Comment :=
  { metadata := { id := 10, number := 1, updated_at := "3" } }

/-! ## The operator-triage rank (amended-claim model for the `lastOperation` sort)

The following definitions follow the corrected precedence wording, not the source:
they give each object an integer rank, and the theorems show the code's
`lastOperation` comparator orders exactly by this rank (ties by name). -/

/-- Bound check used by the rank correspondence: any present progress percentage is
at most 100. -/
def progressWithinBounds (item : Shoot) : Bool :=
  match item.status.lastOperation with
  | some op =>
    match op.progress with
    | some p => p ≤ 100
    | none => true
  | none => true

/-- The integer operator-triage rank of the amended claim: ascending, hard failures
not in progress come first (rank 0), then hard failures in progress
(100 + progress), user-caused failures not in progress (200), user-caused failures
in progress (300 + progress), reconciliation-deactivated with failure (400),
reconciliation-deactivated without failure (450), hibernated (500), any other
operation in progress (600 + progress), and everything else last (700). -/
def lastOpRank (u : Utils) (item : Shoot) : Int :=
  let operation := item.status.lastOperation.getD {}
  let inProgress :=
    !(operation.progress == some 100) && !(operation.opState == some "Failed")
      && progressTruthy operation.progress
  let lastErrors := item.status.lastErrors
  let isError := operation.opState == some "Failed" || !lastErrors.isEmpty
  let userError := u.isUserError (u.errorCodesFromLastErrors lastErrors)
  let ignoredFromReconciliation := u.isReconciliationDeactivated item.metadata
  let progress : Int := Int.ofNat (operation.progress.getD 0)
  if ignoredFromReconciliation then
    if isError then 400 else 450
  else if userError && !inProgress then 200
  else if userError && inProgress then 300 + progress
  else if isError && !inProgress then 0
  else if isError && inProgress then 100 + progress
  else if inProgress then 600 + progress
  else if u.isShootStatusHibernated item.status then 500
  else 700

/-- The normal form of a `lastOperation` sort value: a plain numeric bucket or a
progress bucket `prefix ++ padded-progress`. -/
inductive LastOpShape where
  | plain (k : Int)
  | prog (h : Nat) (p : Nat)
deriving DecidableEq, Repr

/-- The JS sort value of a shape. -/
def shapeVal : LastOpShape → JSVal
  | .plain k => .num k
  | .prog h p => .str (Nat.repr h ++ padStartTwoZero (Nat.repr p))

/-- The integer rank of a shape. -/
def shapeRank : LastOpShape → Int
  | .plain k => k
  | .prog h p => Int.ofNat (100 * h + p)

/-- The shapes `getSortValLastOperation` can produce under bounded progress. -/
def validShape : LastOpShape → Prop
  | .plain k => k = 0 ∨ k = 200 ∨ k = 400 ∨ k = 450 ∨ k = 500 ∨ k = 700
  | .prog h p => (h = 1 ∨ h = 3 ∨ h = 6) ∧ 1 ≤ p ∧ p ≤ 99

/-- The three-way integer comparison the amended `lastOperation` claim orders by. -/
def rankOrdering (x y : Int) : Ordering :=
  if x < y then .lt else if y < x then .gt else .eq

/-! ## Concrete subscribe/unsubscribe scenario (for the round-trip claim)

`foo@example.org` subscribes to namespace `ns1` (the initial fetch returns
`[shootX]`), then immediately unsubscribes. -/

/-- The root context of the scenario: current namespace `ns1`. -/
def c3Ctx : RootCtx :=
  { namespc := "ns1" }

/-- The state and rooms after the subscribe round trip. -/
def c3AfterSubscribe : ShootsState × List String :=
  setSubscriptionRoundTrip sampleProjects userFoo "socket1" sampleUtils c3Ctx
    {} ["socket1"] [shootX] {}

/-- The state and rooms after the immediately following unsubscribe round trip. -/
def c3AfterUnsubscribe : ShootsState × List String :=
  unsubscribeRoundTrip "socket1" sampleUtils c3Ctx c3AfterSubscribe.1 c3AfterSubscribe.2

/-! ## Helper lemmas: the character-list order -/

theorem charListCompare_self : ∀ x, charListCompare x x = Ordering.eq
  | [] => rfl
  | a :: as => by
    simp only [charListCompare, lt_irrefl, if_false]
    exact charListCompare_self as

theorem charListCompare_swap : ∀ x y, charListCompare x y = (charListCompare y x).swap
  | [], [] => rfl
  | [], _ :: _ => rfl
  | _ :: _, [] => rfl
  | a :: as, b :: bs => by
    simp only [charListCompare]
    rcases Nat.lt_trichotomy a.toNat b.toNat with h | h | h
    · simp [h, Nat.lt_asymm h, Ordering.swap]
    · simp [h, lt_irrefl, charListCompare_swap as bs]
    · simp [h, Nat.lt_asymm h, Ordering.swap]

theorem charListCompare_le_trans :
    ∀ x y z, charListCompare x y ≠ Ordering.gt → charListCompare y z ≠ Ordering.gt →
      charListCompare x z ≠ Ordering.gt
  | [], _, [], _, _ => by simp [charListCompare]
  | [], _, _ :: _, _, _ => by simp [charListCompare]
  | _ :: _, [], _, h1, _ => by simp [charListCompare] at h1
  | _ :: _, _ :: _, [], _, h2 => by simp [charListCompare] at h2
  | a :: as, b :: bs, c :: cs, h1, h2 => by
    simp only [charListCompare] at h1 h2 ⊢
    rcases Nat.lt_trichotomy a.toNat b.toNat with hab | hab | hab
    · rcases Nat.lt_trichotomy b.toNat c.toNat with hbc | hbc | hbc
      · have hac : a.toNat < c.toNat := Nat.lt_trans hab hbc
        simp [hac]
      · rw [← hbc]
        simp [hab]
      · simp [hbc, Nat.lt_asymm hbc] at h2
    · rw [hab]
      rcases Nat.lt_trichotomy b.toNat c.toNat with hbc | hbc | hbc
      · simp [hbc]
      · rw [hab] at h1
        rw [← hbc]
        simp only [lt_irrefl, if_false] at h1 ⊢
        rw [← hbc] at h2
        simp only [lt_irrefl, if_false] at h2
        exact charListCompare_le_trans as bs cs h1 h2
      · simp [hbc, Nat.lt_asymm hbc] at h2
    · simp [hab, Nat.lt_asymm hab] at h1

/-- Totality of the JS string order. -/
theorem jsStrLe_total (a b : String) : jsStrLe a b = true ∨ jsStrLe b a = true := by
  rcases h : charListCompare a.data b.data with _ | _ | _
  · left
    rw [jsStrLe, jsStrCompare, h]
    rfl
  · left
    rw [jsStrLe, jsStrCompare, h]
    rfl
  · right
    have hs := charListCompare_swap b.data a.data
    rw [h] at hs
    rw [jsStrLe, jsStrCompare, hs]
    rfl

/-- Transitivity of the JS string order. -/
theorem jsStrLe_trans {a b c : String} (h1 : jsStrLe a b = true) (h2 : jsStrLe b c = true) :
    jsStrLe a c = true := by
  have g1 : charListCompare a.data b.data ≠ Ordering.gt := by
    intro hg
    rw [jsStrLe, jsStrCompare, hg] at h1
    exact absurd h1 (by decide)
  have g2 : charListCompare b.data c.data ≠ Ordering.gt := by
    intro hg
    rw [jsStrLe, jsStrCompare, hg] at h2
    exact absurd h2 (by decide)
  have g3 := charListCompare_le_trans _ _ _ g1 g2
  rcases h : charListCompare a.data c.data with _ | _ | _
  · rw [jsStrLe, jsStrCompare, h]
    rfl
  · rw [jsStrLe, jsStrCompare, h]
    rfl
  · exact absurd h g3

instance : IsTotal Ticket ticketGe :=
  ⟨fun a b => (jsStrLe_total b.metadata.updated_at a.metadata.updated_at).elim Or.inl Or.inr⟩

instance : IsTrans Ticket ticketGe :=
  ⟨fun _ _ _ h1 h2 => jsStrLe_trans h2 h1⟩

instance : IsTotal Comment commentGe :=
  ⟨fun a b => (jsStrLe_total b.metadata.updated_at a.metadata.updated_at).elim Or.inl Or.inr⟩

instance : IsTrans Comment commentGe :=
  ⟨fun _ _ _ h1 h2 => jsStrLe_trans h2 h1⟩

/-! ## Helper lemmas: list membership -/

theorem contains_append_one (l : List String) (u : String) :
    (l ++ [u]).contains u = true := by
  induction l with
  | nil => simp
  | cons a as ih =>
    simp only [List.cons_append, List.contains_cons, ih, Bool.or_true]

theorem contains_filter_ne (l : List String) (u : String) :
    (l.filter (fun x => x ≠ u)).contains u = false := by
  induction l with
  | nil => rfl
  | cons a as ih =>
    by_cases h : a = u
    · simp [List.filter_cons, h, ih]
    · simp only [List.filter_cons, decide_not]
      simp [h, ih, Ne.symm h]

/-! ## Claim theorems -/

/-- C9: a subscribe (or unsubscribe) request that is not acknowledged is rejected
after the 15-second deadline (`emitAckTimeoutMillis = 15 * 1000`) with an error
carrying the `ETIMEDOUT` code, which no explicit server rejection carries — the two
error kinds are always distinguishable — and each call consumes exactly one
transport outcome, i.e. the router emits exactly one request and never retries by
itself (a disconnected socket emits nothing at all). -/
theorem C9_ack_timeout_semantics :
    emitAckTimeoutMillis = 15 * 1000
    ∧ (∀ name, socketEmit name .timeout =
        .error { code := some "ETIMEDOUT",
                 message := "No acknowledgement received to event " ++ name
                   ++ " within 15 seconds" })
    ∧ (∀ name msg, socketEmit name (.ack (some msg)) = .error { code := none, message := msg })
    ∧ (∀ name msg, socketEmit name .timeout ≠ socketEmit name (.ack (some msg)))
    ∧ (∀ o rest, (socketSubscribe true (o :: rest)).2 = rest)
    ∧ (∀ o rest, (socketUnsubscribe (o :: rest)).2 = rest)
    ∧ (∀ outcomes, socketSubscribe false outcomes = (.ok (), outcomes)) := by
  refine ⟨rfl, fun name => rfl, fun name msg => rfl, ?_, ?_, ?_, fun outcomes => rfl⟩
  · intro name msg h
    rw [socketEmit, socketEmit] at h
    injection h with h
    injection h with h
    exact absurd h (by simp)
  · intro o rest
    rcases o with _ | e
    · rfl
    · rcases e with _ | m
      · rfl
      · rfl
  · intro o rest
    rcases o with _ | e
    · rfl
    · rcases e with _ | m
      · rfl
      · rfl

/-- C9 witness: the distinguishability and single-consumption facts at concrete
inputs. -/
theorem C9_ack_timeout_semantics_witness :
    socketEmit "subscribe" .timeout ≠ socketEmit "subscribe" (.ack (some "rejected"))
    ∧ (socketSubscribe true [.timeout]).2 = [] :=
  ⟨C9_ack_timeout_semantics.2.2.2.1 "subscribe" "rejected",
    C9_ack_timeout_semantics.2.2.2.2.1 .timeout []⟩

/-- C10: a DELETED event whose key is not present is a complete no-op, in all three
collections: the shoot keyed collection is unchanged and the re-sort flag untouched
(the whole state is equal), a ticket delete with an unknown `metadata.number` leaves
the ticket list unchanged, and a comment delete with an unknown group or an unknown
`metadata.id` within its group leaves the comment groups unchanged. -/
theorem C10_delete_missing_is_noop (s : ShootsState) (md : Metadata)
    (tickets : List Ticket) (t : Ticket) (allComments : List (Int × List Comment))
    (c : Comment)
    (h1 : getItemByKey s (getKey md) = none)
    (h2 : tickets.findIdx? (fun x => x.metadata.number == t.metadata.number) = none)
    (h3 : ∀ group, List.lookup c.metadata.number allComments = some group →
      group.findIdx? (fun x => x.metadata.id == c.metadata.id) = none) :
    DELETE_ITEM s md = s ∧ ticketsDeleteItem tickets t = tickets
      ∧ commentsDeleteItem allComments c = allComments := by
  refine ⟨?_, ?_, ?_⟩
  · rw [DELETE_ITEM]
    simp only [h1]
  · rw [ticketsDeleteItem]
    simp only [h2]
  · rw [commentsDeleteItem]
    rcases hl : List.lookup c.metadata.number allComments with _ | group
    · rfl
    · simp only [h3 group hl]

/-- C10 witness: deleting an absent key from concrete non-empty collections. -/
theorem C10_delete_missing_is_noop_witness :
    DELETE_ITEM { shoots := [("ns1/cl1", shootX)] } { namespc := "ns1", name := "gone" }
        = { shoots := [("ns1/cl1", shootX)] }
    ∧ ticketsDeleteItem [ticketA] ticketB = [ticketA]
    ∧ commentsDeleteItem [(1, [commentA])]
        { metadata := { id := 99, number := 1, updated_at := "9" } } = [(1, [commentA])] :=
  C10_delete_missing_is_noop _ _ _ _ _ _ (by decide) (by decide)
    (by
      intro group hg
      rw [show List.lookup (1 : Int) [(1, [commentA])] = some [commentA] from by decide] at hg
      injection hg with hg
      rw [← hg]
      decide)

/-- C6: re-delivering an ADDED/MODIFIED event whose `resourceVersion` equals the
stored object's is ignored by both store revisions: `PUT_ITEM` leaves the whole
state (keyed collection and `sortRequired` flag included) unchanged, and
`handleEvents` of the split-store revision filters the event out, leaving the state
unchanged. -/
theorem C6_stale_event_ignored (u : Utils) (ctx : RootCtx) (s : ShootsState)
    (s2 : ShootsStateV2) (newItem old old2 : Shoot) (ty : EventType)
    (h1 : getItemByKey s (getKey newItem.metadata) = some old)
    (h2 : old.metadata.resourceVersion = newItem.metadata.resourceVersion)
    (h3 : getItemByKeyV2 s2 (getKey newItem.metadata) = some old2)
    (h4 : old2.metadata.resourceVersion = newItem.metadata.resourceVersion)
    (h5 : ty = EventType.added ∨ ty = EventType.modified) :
    PUT_ITEM u s newItem = s
      ∧ handleEventsV2 u ctx s2 [{ type := ty, object := newItem }] = s2 := by
  constructor
  · rw [PUT_ITEM]
    simp only [h1, h2, ne_eq, not_true_eq_false, if_false]
  · have hstep : ∀ accStart : HandleEventsAcc,
        handleEventsPredicateStep u (ctx.namespc == "_all" && ctx.onlyShootsWithIssues)
          s2 accStart { type := ty, object := newItem } = accStart := by
      intro accStart
      rcases h5 with h5 | h5
      · subst h5
        rw [handleEventsPredicateStep]
        simp only [h3, h4, ne_eq, not_true_eq_false, if_false, ite_self]
      · subst h5
        rw [handleEventsPredicateStep]
        simp only [h3, h4, ne_eq, not_true_eq_false, if_false, ite_self]
    rw [handleEventsV2]
    simp only [List.foldl_cons, List.foldl_nil, hstep]
    rfl

/-- C6 witness: a MODIFIED re-delivery of `shootX` (stored `resourceVersion` `"1"`)
at concrete states of both revisions. -/
theorem C6_stale_event_ignored_witness :
    PUT_ITEM sampleUtils { shoots := [("ns1/cl1", shootX)] } shootX
        = { shoots := [("ns1/cl1", shootX)] }
    ∧ handleEventsV2 sampleUtils {} { shoots := [("ns1/cl1", shootX)] }
        [{ type := EventType.modified, object := shootX }]
      = { shoots := [("ns1/cl1", shootX)] } :=
  C6_stale_event_ignored sampleUtils {} _ _ shootX shootX shootX EventType.modified
    (by decide) rfl (by decide) rfl (Or.inr rfl)

/-- C5 counterexample: the claim "after a DELETED event the object's UID is not a
member of the Issue-Tracking Set" fails.  A DELETED event for an unhealthy object
whose UID is not yet tracked makes the handler add the UID to the set, so the UID is
a member afterwards. -/
theorem C5_counterexample :
    ((shootsWatchHandler sampleUtils.shootHasIssue []
        { type := EventType.deleted, object := shootUnhealthy }).1.contains "uid-bad")
      = true := by
  decide

/-- C5 (amended): processing a DELETED event leaves the UID in the Issue-Tracking
Set exactly when the deleted object still satisfies the health predicate and was not
yet tracked (the handler adds first-seen unhealthy UIDs even on deletion); a tracked
UID is always removed, so deletion resolves a tracked issue entry but can create an
untracked one. -/
theorem C5_deleted_issue_tracking (hasIssue : Shoot → Bool) (issues : List String)
    (ev : Event) (h : ev.type = EventType.deleted) :
    ((shootsWatchHandler hasIssue issues ev).1.contains ev.object.metadata.uid)
      = (hasIssue ev.object && !(issues.contains ev.object.metadata.uid)) := by
  rw [shootsWatchHandler]
  by_cases hIss : hasIssue ev.object
  · by_cases hMem : issues.contains ev.object.metadata.uid
    · simp only [hIss, if_true, hMem, Bool.not_true, Bool.false_eq_true, if_false, h,
        beq_self_eq_true, if_true, Bool.and_false]
      exact contains_filter_ne issues ev.object.metadata.uid
    · simp only [hIss, if_true, hMem, Bool.not_false, if_true, Bool.and_true]
      exact contains_append_one issues ev.object.metadata.uid
  · simp only [Bool.not_eq_true] at hIss
    simp only [hIss, Bool.false_eq_true, if_false, Bool.false_and]
    by_cases hMem : issues.contains ev.object.metadata.uid
    · simp only [hMem, if_true]
      exact contains_filter_ne issues ev.object.metadata.uid
    · simp only [Bool.not_eq_true] at hMem
      simp only [hMem, Bool.false_eq_true, if_false]

/-- C5 witness: a DELETED event for the healthy `shootX` with its UID tracked — the
UID is removed (healthy object, so the right-hand side is `false`). -/
theorem C5_deleted_issue_tracking_witness :
    ((shootsWatchHandler sampleUtils.shootHasIssue ["uid-x"]
        { type := EventType.deleted, object := shootX }).1.contains "uid-x")
      = (sampleUtils.shootHasIssue shootX && !(["uid-x"].contains "uid-x")) :=
  C5_deleted_issue_tracking sampleUtils.shootHasIssue ["uid-x"]
    { type := EventType.deleted, object := shootX } rfl

/-- C7 counterexample: the claim "after every insert or replace the group's items
are in descending order by updated_at" fails for a replace.  Replacing the stored
`number 2` ticket (timestamp `"2"`) in the descending group `[3, 2]` with a fresher
version (timestamp `"5"`) happens in place, leaving `[3, 5]`, which is not
descending. -/
theorem C7_counterexample :
    ticketsPutItem [ticketA, ticketB] ticketB2 = [ticketA, ticketB2]
      ∧ ¬ List.Sorted ticketGe [ticketA, ticketB2] := by
  constructor
  · decide
  · intro hs
    have := List.rel_of_sorted_cons hs ticketB2 (by simp)
    rw [ticketGe] at this
    exact absurd this (by decide)

/-- C7 (amended): an incoming ADDED/MODIFIED event replaces the stored item with the
same secondary key iff its `updated_at` is greater-or-equal to the stored one
(otherwise it is dropped), and the replacement happens in place, without re-sorting;
descending order by `updated_at` is (re-)established only on inserts of a new key,
where the whole group is re-sorted.  Stated for the tickets module (keyed by
`metadata.number`) and the comments module (grouped by `metadata.number`, keyed by
`metadata.id`, including fresh-group creation). -/
theorem C7_put_item_semantics :
    (∀ (items : List Ticket) (item : Ticket),
      items.findIdx? (fun t => t.metadata.number == item.metadata.number) = none →
        ticketsPutItem items item = orderByUpdatedAtTickets (items ++ [item])
        ∧ List.Sorted ticketGe (ticketsPutItem items item)
        ∧ item ∈ ticketsPutItem items item)
    ∧ (∀ (items : List Ticket) (item : Ticket) (i : Nat) (old : Ticket),
        items.findIdx? (fun t => t.metadata.number == item.metadata.number) = some i →
        items[i]? = some old →
          (jsStrLe old.metadata.updated_at item.metadata.updated_at = true →
            ticketsPutItem items item = items.set i item)
          ∧ (jsStrLe old.metadata.updated_at item.metadata.updated_at = false →
            ticketsPutItem items item = items))
    ∧ (∀ (allC : List (Int × List Comment)) (item : Comment),
        List.lookup item.metadata.number allC = none →
          commentsPutItem allC item = allC ++ [(item.metadata.number, [item])])
    ∧ (∀ (allC : List (Int × List Comment)) (item : Comment) (group : List Comment),
        List.lookup item.metadata.number allC = some group →
        group.findIdx? (fun c => c.metadata.id == item.metadata.id) = none →
          commentsPutItem allC item
            = setGroup allC item.metadata.number (orderByUpdatedAtComments (group ++ [item]))
          ∧ List.Sorted commentGe (orderByUpdatedAtComments (group ++ [item])))
    ∧ (∀ (allC : List (Int × List Comment)) (item : Comment) (group : List Comment)
        (i : Nat) (old : Comment),
        List.lookup item.metadata.number allC = some group →
        group.findIdx? (fun c => c.metadata.id == item.metadata.id) = some i →
        group[i]? = some old →
          (jsStrLe old.metadata.updated_at item.metadata.updated_at = true →
            commentsPutItem allC item
              = setGroup allC item.metadata.number (group.set i item))
          ∧ (jsStrLe old.metadata.updated_at item.metadata.updated_at = false →
            commentsPutItem allC item = allC)) := by
  refine ⟨?_, ?_, ?_, ?_, ?_⟩
  · intro items item hIdx
    have heq : ticketsPutItem items item = orderByUpdatedAtTickets (items ++ [item]) := by
      rw [ticketsPutItem]
      simp only [hIdx]
    refine ⟨heq, ?_, ?_⟩
    · rw [heq, orderByUpdatedAtTickets]
      exact List.sorted_insertionSort ticketGe _
    · rw [heq, orderByUpdatedAtTickets]
      exact (List.perm_insertionSort ticketGe _).mem_iff.mpr (by simp)
  · intro items item i old hIdx hGet
    constructor
    · intro hle
      rw [ticketsPutItem]
      simp only [hIdx, hGet, hle, if_true]
    · intro hle
      rw [ticketsPutItem]
      simp only [hIdx, hGet, hle, Bool.false_eq_true, if_false]
  · intro allC item hLook
    rw [commentsPutItem]
    simp only [hLook]
  · intro allC item group hLook hIdx
    constructor
    · rw [commentsPutItem]
      simp only [hLook, hIdx]
    · rw [orderByUpdatedAtComments]
      exact List.sorted_insertionSort commentGe _
  · intro allC item group i old hLook hIdx hGet
    constructor
    · intro hle
      rw [commentsPutItem]
      simp only [hLook, hIdx, hGet, hle, if_true]
    · intro hle
      rw [commentsPutItem]
      simp only [hLook, hIdx, hGet, hle, Bool.false_eq_true, if_false]

/-- C7 witness: the amended semantics at concrete inputs — inserting a new ticket
re-sorts the group descending, a fresher replacement lands in place, an older comment
is dropped, and a fresh comment group is created. -/
theorem C7_put_item_semantics_witness :
    (ticketsPutItem [ticketA] ticketB = orderByUpdatedAtTickets ([ticketA] ++ [ticketB])
      ∧ List.Sorted ticketGe (ticketsPutItem [ticketA] ticketB)
      ∧ ticketB ∈ ticketsPutItem [ticketA] ticketB)
    ∧ ticketsPutItem [ticketA, ticketB] ticketB2 = [ticketA, ticketB].set 1 ticketB2
    ∧ commentsPutItem [] commentA = [] ++ [(commentA.metadata.number, [commentA])]
    ∧ commentsPutItem [(1, [commentA])]
        { metadata := { id := 10, number := 1, updated_at := "1" } } = [(1, [commentA])] :=
  ⟨C7_put_item_semantics.1 [ticketA] ticketB (by decide),
    (C7_put_item_semantics.2.1 [ticketA, ticketB] ticketB2 1 ticketB (by decide)
      (by decide)).1 (by decide),
    C7_put_item_semantics.2.2.1 [] commentA rfl,
    (C7_put_item_semantics.2.2.2.2 [(1, [commentA])]
      { metadata := { id := 10, number := 1, updated_at := "1" } } [commentA] 0 commentA
      (by decide) (by decide) (by decide)).2 (by decide)⟩

/-- C1 (code bug): the rooms of the synthesized DELETED event never contain the room
an unhealthy-scope subscriber is in.  Concretely: an admin subscribing to the
unhealthy all-namespaces scope joins `subs://shoots/all-namespaces/unhealthy-clusters`;
when the tracked `shootX` turns healthy via a MODIFIED event, the handler does
synthesize a DELETED event, but emits it to `subs://shoot/namespace/ns1/unhealthy`
and `subs://shoot/all-namespaces/unhealthy` (singular `shoot`, different suffix) —
and no emission of the whole dispatch targets the subscriber's room, so that client
receives neither the synthetic DELETED nor the raw MODIFIED event. -/
theorem C1_synthetic_delete_misses_subscriber_room :
    subscribeShootsAllNamespacesServer adminUser ["socket1"] true
      = (["socket1", "subs://shoots/all-namespaces/unhealthy-clusters"], none)
    ∧ (shootsWatchHandler sampleUtils.shootHasIssue ["uid-x"]
        { type := EventType.modified, object := shootX }).2
      = [{ rooms := ["subs://shoots/namespace/ns1/cluster/cl1",
              "subs://shoots/namespace/ns1/all-clusters",
              "subs://shoots/all-namespaces/all-clusters"],
           event := { type := EventType.modified, object := shootX } },
         { rooms := ["subs://shoot/namespace/ns1/unhealthy",
              "subs://shoot/all-namespaces/unhealthy"],
           event := { type := EventType.deleted, object := shootX } }]
    ∧ (∀ e ∈ (shootsWatchHandler sampleUtils.shootHasIssue ["uid-x"]
          { type := EventType.modified, object := shootX }).2,
        ¬ ("subs://shoots/all-namespaces/unhealthy-clusters" ∈ e.rooms)) := by
  refine ⟨by decide, by decide, ?_⟩
  decide

/-- C8 counterexample: the claim "violation fails with an Authorization error before
any room join occurs (no partial join, no state change)" fails on its no-state-change
part.  `foo@example.org` (member of `ns1` only, currently in the `ns1` shoots room)
subscribes to `ns2`: the attempt is rejected, but the previously joined shoots room
has already been left, so the room state did change. -/
theorem C8_counterexample :
    (subscribeHandlerShoots sampleProjects userFoo "socket1"
        ["socket1", "subs://shoots/namespace/ns1/all-clusters"]
        (some "ns2") none none).2.isSome = true
    ∧ (subscribeHandlerShoots sampleProjects userFoo "socket1"
        ["socket1", "subs://shoots/namespace/ns1/all-clusters"]
        (some "ns2") none none).1
      ≠ ["socket1", "subs://shoots/namespace/ns1/all-clusters"] := by
  constructor
  · decide
  · decide

/-- C8 (amended): a non-admin caller subscribing to a specific namespace it is not a
member of gets an Authorization error and no room is joined; however, the handler
has already left the caller's previous shoots rooms before the membership check, so
a failed attempt leaves the caller in no shoots room (the room state is not
unchanged).  A member's subscribe proceeds: old shoots rooms left, the new room
joined. -/
theorem C8_subscribe_authorization :
    (∀ (projects : List Project) (user : User) (socketId : String) (rooms : List String)
        (ns : String) (nameParam unhealthyParam : Option String),
      ns ≠ "" →
      isMemberOfNamespace projects user ns = false →
      subscribeHandlerShoots projects user socketId rooms (some ns) nameParam unhealthyParam
        = (unsubscribeShootsServer socketId rooms,
            some ("User " ++ user.id ++ " has no authorization for namespace " ++ ns)))
    ∧ (∀ (projects : List Project) (user : User) (socketId : String) (rooms : List String)
        (ns : String) (nameParam unhealthyParam : Option String),
      ns ≠ "" →
      isMemberOfNamespace projects user ns = true →
      subscribeHandlerShoots projects user socketId rooms (some ns) nameParam unhealthyParam
        = (unsubscribeShootsServer socketId rooms
            ++ ["subs://shoots/namespace/" ++ encodeURIComponent ns ++
                (match truthyParam nameParam with
                 | some n => "/cluster/" ++ encodeURIComponent n
                 | none => "/all-clusters")], none)) := by
  have htruthy : ∀ ns : String, ns ≠ "" → truthyParam (some ns) = some ns := by
    intro ns hns
    rw [truthyParam.eq_def]
    split
    · next heq =>
      injection heq with heq
      exact absurd heq hns
    · rfl
  constructor
  · intro projects user socketId rooms ns nameParam unhealthyParam hns hMember
    rw [subscribeHandlerShoots, htruthy ns hns]
    simp only [subscribeShootsServer, hMember, Bool.not_false, if_true]
  · intro projects user socketId rooms ns nameParam unhealthyParam hns hMember
    rw [subscribeHandlerShoots, htruthy ns hns]
    simp only [subscribeShootsServer, hMember, Bool.not_true, Bool.false_eq_true, if_false]
    rw [← String.append_assoc]
    rfl

/-- C8 witness: both branches at concrete inputs — `foo@example.org` is rejected for
`ns2` (rooms reduced to the already-left state) and admitted for `ns1`. -/
theorem C8_subscribe_authorization_witness :
    subscribeHandlerShoots sampleProjects userFoo "socket1" ["socket1"]
        (some "ns2") none none
      = (unsubscribeShootsServer "socket1" ["socket1"],
          some ("User " ++ userFoo.id ++ " has no authorization for namespace " ++ "ns2"))
    ∧ subscribeHandlerShoots sampleProjects userFoo "socket1" ["socket1"]
        (some "ns1") none none
      = (unsubscribeShootsServer "socket1" ["socket1"]
          ++ ["subs://shoots/namespace/" ++ encodeURIComponent "ns1" ++
              (match truthyParam none with
               | some n => "/cluster/" ++ encodeURIComponent n
               | none => "/all-clusters")], none) :=
  ⟨C8_subscribe_authorization.1 sampleProjects userFoo "socket1" ["socket1"] "ns2" none none
      (by decide) (by decide),
    C8_subscribe_authorization.2 sampleProjects userFoo "socket1" ["socket1"] "ns1" none none
      (by decide) (by decide)⟩

/-- C3 (code bug): subscribing to namespace `ns1` and immediately unsubscribing does
leave the client in zero subscription rooms on the server (only its own socket-id
room remains), but the local keyed collection is NOT cleared: the plugin dispatches
`shoots/subscribed` — not `shoots/unsubscribed` — after an unsubscribe, which with no
active subscription does nothing, so the fetched item is still present.  The
module's `unsubscribed` action, which is never dispatched, would have cleared it. -/
theorem C3_round_trip_leaves_collection :
    c3AfterUnsubscribe.2 = ["socket1"]
    ∧ c3AfterUnsubscribe.1.shoots = [("ns1/cl1", shootX)]
    ∧ c3AfterUnsubscribe.1.subscription = none
    ∧ (shootsUnsubscribedAction c3AfterUnsubscribe.1).shoots = [] := by
  refine ⟨by decide, by decide, by decide, by decide⟩

/-! ## Helper lemmas: the event queue is only drained by `processEvents` -/

theorem PUT_ITEM_events (u : Utils) (s : ShootsState) (x : Shoot) :
    (PUT_ITEM u s x).events = s.events := by
  rw [PUT_ITEM]
  rcases h : getItemByKey s (getKey x.metadata) with _ | oldItem
  · rfl
  · by_cases hrv : oldItem.metadata.resourceVersion ≠ x.metadata.resourceVersion
    · simp only [hrv, if_true]
      by_cases hsr : isSortRequired u (activeSortBy s) x oldItem
      · simp only [hsr, if_true]
        rw [if_pos hrv]
      · simp only [hsr, Bool.false_eq_true, if_false]
        rw [if_pos hrv]
    · simp only [hrv, if_false]

theorem DELETE_ITEM_events (s : ShootsState) (md : Metadata) :
    (DELETE_ITEM s md).events = s.events := by
  rw [DELETE_ITEM]
  rcases h : getItemByKey s (getKey md) with _ | item
  · rfl
  · rfl

theorem updateSortedShoots_events (u : Utils) (ctx : RootCtx) (s : ShootsState) :
    (updateSortedShoots u ctx s).events = s.events :=
  rfl

theorem updateSortedShoots_shoots (u : Utils) (ctx : RootCtx) (s : ShootsState) :
    (updateSortedShoots u ctx s).shoots = s.shoots :=
  rfl

theorem foldApply_events (u : Utils) (only : Bool) :
    ∀ (events : List Event) (s : ShootsState),
      (events.foldl (fun s ev =>
        match ev.type with
        | .added | .modified =>
          if !only || u.shootHasIssue ev.object then PUT_ITEM u s ev.object else s
        | .deleted => DELETE_ITEM s ev.object.metadata) s).events = s.events
  | [], _ => rfl
  | ev :: evs, s => by
    rw [List.foldl_cons]
    rw [foldApply_events u only evs]
    rcases ev with ⟨ty, obj⟩
    rcases ty with _ | _ | _
    · by_cases hg : (!only || u.shootHasIssue obj) = true
      · simp only [hg, if_true]
        exact PUT_ITEM_events u s obj
      · simp only [Bool.not_eq_true] at hg
        simp only [hg, Bool.false_eq_true, if_false]
    · by_cases hg : (!only || u.shootHasIssue obj) = true
      · simp only [hg, if_true]
        exact PUT_ITEM_events u s obj
      · simp only [Bool.not_eq_true] at hg
        simp only [hg, Bool.false_eq_true, if_false]
    · exact DELETE_ITEM_events s obj.metadata

theorem processEvents_drains_queue (u : Utils) (ctx : RootCtx) (s : ShootsState) :
    (processEvents u ctx s).events = [] := by
  rw [processEvents]
  set s1 := s.events.foldl (fun s ev =>
    match ev.type with
    | .added | .modified =>
      if !(ctx.namespc == "_all" && ctx.onlyShootsWithIssues) || u.shootHasIssue ev.object then
        PUT_ITEM u s ev.object
      else s
    | .deleted => DELETE_ITEM s ev.object.metadata) { s with events := [] } with hs1
  have h1 : s1.events = [] := by
    rw [hs1]
    exact foldApply_events u _ s.events { s with events := [] }
  by_cases hsr : s1.sortRequired
  · simp only [hsr, if_true, updateSortedShoots_events, h1]
  · simp only [hsr, Bool.false_eq_true, if_false, h1]

theorem lookupItem_append_self (shoots : List (String × Shoot)) (key : String) (v : Shoot)
    (h : lookupItem shoots key = none) :
    lookupItem (shoots ++ [(key, v)]) key = some v := by
  induction shoots with
  | nil => simp [lookupItem]
  | cons kv rest ih =>
    by_cases hk : (kv.1 == key) = true
    · rw [lookupItem] at h
      simp only [List.find?_cons, hk, if_true] at h
      simp at h
    · simp only [Bool.not_eq_true] at hk
      rw [lookupItem] at h
      simp only [List.find?_cons, hk, Bool.false_eq_true, if_false] at h
      rw [List.cons_append, lookupItem]
      simp only [List.find?_cons, hk, Bool.false_eq_true, if_false]
      exact ih h

/-- C2 counterexample: the claim "the event's effect is applied to the Keyed
Collection immediately and synchronously when the event is handled" fails for an
event handled while the throttle is active.  The first ADDED event (leading edge,
`throttleInvokes = true`) is applied; the second ADDED event arriving within the
3-second window (`throttleInvokes = false`) is only queued: its key is absent from
the keyed collection after `handleEvent` returns. -/
theorem C2_counterexample :
    getItemByKey
        (handleEvent sampleUtils c3Ctx
          (handleEvent sampleUtils c3Ctx {} { type := EventType.added, object := shootX } true)
          { type := EventType.added, object := shootY } false)
        "ns1/cl2" = none
    ∧ (handleEvent sampleUtils c3Ctx
        (handleEvent sampleUtils c3Ctx {} { type := EventType.added, object := shootX } true)
        { type := EventType.added, object := shootY } false).events
      = [{ type := EventType.added, object := shootY }] := by
  constructor
  · decide
  · decide

/-- C2 (amended): `handleEvent` synchronously appends the event to the pending
queue; the keyed-collection application happens only in the throttled
`processEvents` pass, together with the re-derivation of the sorted/filtered
sequences.  A call at a throttle edge is `processEvents` after the enqueue; a
throttled call leaves the keyed collection and both derived sequences untouched;
`processEvents` always drains the queue, and the deferred event is applied then (for
an ADDED event of a fresh key passing the issues-only guard, the object is in the
collection after the pass). -/
theorem C2_application_deferred_by_throttle (u : Utils) (ctx : RootCtx)
    (s : ShootsState) (e : Event) :
    (handleEvent u ctx s e false).shoots = s.shoots
    ∧ (handleEvent u ctx s e false).sortedShoots = s.sortedShoots
    ∧ (handleEvent u ctx s e false).filteredShoots = s.filteredShoots
    ∧ (handleEvent u ctx s e false).events = s.events ++ [e]
    ∧ handleEvent u ctx s e true = processEvents u ctx (ADD_EVENT s e)
    ∧ (processEvents u ctx s).events = []
    ∧ (s.events = [] → e.type = EventType.added →
        (!(ctx.namespc == "_all" && ctx.onlyShootsWithIssues) || u.shootHasIssue e.object)
          = true →
        getItemByKey s (getKey e.object.metadata) = none →
        getItemByKey (processEvents u ctx (handleEvent u ctx s e false))
          (getKey e.object.metadata) = some e.object) := by
  refine ⟨rfl, rfl, rfl, rfl, rfl, processEvents_drains_queue u ctx s, ?_⟩
  intro hq hty hg hmiss
  rcases e with ⟨ty, obj⟩
  simp only at hty
  subst hty
  have hstate : handleEvent u ctx s { type := EventType.added, object := obj } false
      = { s with events := [{ type := EventType.added, object := obj }] } := by
    rw [handleEvent, ADD_EVENT, if_neg (by simp)]
    rw [hq]
    rfl
  have hmiss2 : getItemByKey { s with events := ([] : List Event) } (getKey obj.metadata)
      = none := hmiss
  have hput : PUT_ITEM u { s with events := [] } obj
      = { s with
          events := [],
          sortRequired := true,
          shoots := s.shoots ++ [(getKey obj.metadata, obj)] } := by
    rw [PUT_ITEM]
    simp only [hmiss2]
  rw [hstate, processEvents]
  simp only [List.foldl_cons, List.foldl_nil, hg, if_true, hput]
  simp only [getItemByKey, updateSortedShoots_shoots]
  exact lookupItem_append_self s.shoots (getKey obj.metadata) obj hmiss

/-! ## Helper lemmas: progress-bucket strings

The in-progress buckets of the `lastOperation` sort are strings
`prefix ++ zero-padded-progress`.  These finite-domain facts connect them to the
integer ranks. -/

theorem rankOrdering_shift (c x y : Int) :
    rankOrdering (c + x) (c + y) = rankOrdering x y := by
  rw [rankOrdering, rankOrdering]
  split_ifs <;> first | rfl | (exfalso; omega)

theorem progString_toNumber :
    ∀ h : Nat, h < 10 → ∀ p : Nat, p < 100 →
      jsStringToNumber (Nat.repr h ++ padStartTwoZero (Nat.repr p))
        = some (Int.ofNat (100 * h + p)) := by
  decide

theorem progString_compare :
    ∀ h : Nat, h < 10 → ∀ h2 : Nat, h2 < 10 → ∀ p : Nat, p < 100 → ∀ q : Nat, q < 100 →
      charListCompare (Nat.repr h ++ padStartTwoZero (Nat.repr p)).data
          (Nat.repr h2 ++ padStartTwoZero (Nat.repr q)).data
        = rankOrdering (Int.ofNat (100 * h + p)) (Int.ofNat (100 * h2 + q)) := by
  intro h hh h2 hh2
  have hchars : ∀ m : Nat, m < 10 → (Nat.repr m).data = [Nat.digitChar m] := by decide
  have hpadlen : ∀ p : Nat, p < 100 → (padStartTwoZero (Nat.repr p)).length = 2 := by decide
  by_cases hEq : h = h2
  · subst hEq
    have hsame : ∀ p : Nat, p < 100 → ∀ q : Nat, q < 100 →
        charListCompare (padStartTwoZero (Nat.repr p)).data
            (padStartTwoZero (Nat.repr q)).data
          = rankOrdering (Int.ofNat p) (Int.ofNat q) := by decide
    intro p hp q hq
    rw [String.data_append, String.data_append, hchars h hh,
      List.singleton_append, List.singleton_append]
    rw [charListCompare]
    simp only [lt_irrefl, if_false]
    rw [hsame p hp q hq]
    have harg1 : Int.ofNat (100 * h + p) = (100 * (h : Int)) + Int.ofNat p := by
      simp only [Int.ofNat_eq_coe]
      push_cast
      ring
    have harg2 : Int.ofNat (100 * h + q) = (100 * (h : Int)) + Int.ofNat q := by
      simp only [Int.ofNat_eq_coe]
      push_cast
      ring
    rw [harg1, harg2, rankOrdering_shift]
  · intro p hp q hq
    rw [String.data_append, String.data_append, hchars h hh, hchars h2 hh2,
      List.singleton_append, List.singleton_append]
    rw [charListCompare]
    have hdig : ∀ m : Nat, m < 10 → ∀ m2 : Nat, m2 < 10 → m ≠ m2 →
        ((Nat.digitChar m).toNat < (Nat.digitChar m2).toNat) = (m < m2) := by decide
    by_cases hlt : h < h2
    · rw [if_pos (by rw [hdig h hh h2 hh2 hEq]; exact hlt)]
      rw [rankOrdering, if_pos (by simp only [Int.ofNat_eq_coe]; omega)]
    · have hgt : h2 < h := by omega
      rw [if_neg (by rw [hdig h hh h2 hh2 hEq]; omega)]
      rw [if_pos (by rw [hdig h2 hh2 h hh (by omega)]; exact hgt)]
      rw [rankOrdering, if_neg (by simp only [Int.ofNat_eq_coe]; omega),
        if_pos (by simp only [Int.ofNat_eq_coe]; omega)]

/-- Every `lastOperation` sort value is a plain numeric bucket or a progress-bucket
string, with the matching integer rank. -/
theorem getSortValLastOperation_shape (u : Utils) (item : Shoot)
    (hb : progressWithinBounds item = true) :
    ∃ sh, getSortValLastOperation u item = shapeVal sh
      ∧ lastOpRank u item = shapeRank sh ∧ validShape sh := by
  have hprog : progressTruthy (item.status.lastOperation.getD {}).progress = true →
      ((item.status.lastOperation.getD {}).progress == some 100) = false →
      ∃ p, (item.status.lastOperation.getD {}).progress = some p ∧ 1 ≤ p ∧ p ≤ 99 := by
    intro hpt hp100
    rcases hlo : item.status.lastOperation with _ | op
    · rw [hlo] at hpt
      simp [progressTruthy] at hpt
    · rw [hlo, Option.getD_some] at hpt hp100
      rcases hp : op.progress with _ | p
      · rw [hp] at hpt
        simp [progressTruthy] at hpt
      · rw [hp] at hpt hp100
        refine ⟨p, by simp [hp], ?_, ?_⟩
        · simp [progressTruthy] at hpt
          omega
        · have hne : p ≠ 100 := by simpa using hp100
          have hb2 : (match op.progress with
              | some v => decide (v ≤ 100)
              | none => true) = true := by
            unfold progressWithinBounds at hb
            rw [hlo] at hb
            exact hb
          rw [hp] at hb2
          have hle : p ≤ 100 := by simpa using hb2
          omega
  simp only [getSortValLastOperation, lastOpRank]
  split_ifs with h1 h2 h3 h4 h5 h6 h7 h8
  · exact ⟨.plain 400, rfl, rfl, by simp [validShape]⟩
  · exact ⟨.plain 450, rfl, rfl, by simp [validShape]⟩
  · exact ⟨.plain 200, rfl, rfl, by simp [validShape]⟩
  · rw [Bool.and_eq_true] at h4
    have hpt := h4.2
    rw [Bool.and_eq_true] at hpt
    obtain ⟨p, hp, hp1, hp99⟩ := hprog hpt.2 (by
      have hab := hpt.1
      rw [Bool.and_eq_true] at hab
      have h100 := hab.1
      rw [Bool.not_eq_true'] at h100
      exact h100)
    rw [hp]
    exact ⟨.prog 3 p, rfl, by
      simp only [shapeRank, Option.getD_some, Int.ofNat_eq_coe]
      push_cast
      ring, Or.inr (Or.inl rfl), hp1, hp99⟩
  · exact ⟨.plain 0, rfl, rfl, by simp [validShape]⟩
  · rw [Bool.and_eq_true] at h6
    have hpt := h6.2
    rw [Bool.and_eq_true] at hpt
    obtain ⟨p, hp, hp1, hp99⟩ := hprog hpt.2 (by
      have hab := hpt.1
      rw [Bool.and_eq_true] at hab
      have h100 := hab.1
      rw [Bool.not_eq_true'] at h100
      exact h100)
    rw [hp]
    exact ⟨.prog 1 p, rfl, by
      simp only [shapeRank, Option.getD_some, Int.ofNat_eq_coe]
      push_cast
      ring, Or.inl rfl, hp1, hp99⟩
  · rw [Bool.and_eq_true] at h7
    obtain ⟨p, hp, hp1, hp99⟩ := hprog h7.2 (by
      have hab := h7.1
      rw [Bool.and_eq_true] at hab
      have h100 := hab.1
      rw [Bool.not_eq_true'] at h100
      exact h100)
    rw [hp]
    exact ⟨.prog 6 p, rfl, by
      simp only [shapeRank, Option.getD_some, Int.ofNat_eq_coe]
      push_cast
      ring, Or.inr (Or.inr rfl), hp1, hp99⟩
  · exact ⟨.plain 500, rfl, rfl, by simp [validShape]⟩
  · exact ⟨.plain 700, rfl, rfl, by simp [validShape]⟩

/-- Sort-value comparison is exactly rank comparison, for valid shapes. -/
theorem shapeVal_compare (sa sb : LastOpShape) (ha : validShape sa) (hb : validShape sb) :
    compareAscending (shapeVal sa) (shapeVal sb)
      = rankOrdering (shapeRank sa) (shapeRank sb) := by
  rcases sa with k | ⟨h, p⟩
  · rcases sb with k2 | ⟨h2, q⟩
    · rfl
    · rcases hb with ⟨hh2, hq1, hq99⟩
      have hh2b : h2 < 10 := by rcases hh2 with rfl | rfl | rfl <;> omega
      have hqb : q < 100 := by omega
      rw [shapeVal, shapeVal, shapeRank, shapeRank]
      simp only [compareAscending, progString_toNumber h2 hh2b q hqb, rankOrdering]
  · rcases ha with ⟨hh, hp1, hp99⟩
    have hhb : h < 10 := by rcases hh with rfl | rfl | rfl <;> omega
    have hpb : p < 100 := by omega
    rcases sb with k2 | ⟨h2, q⟩
    · rw [shapeVal, shapeVal, shapeRank, shapeRank]
      simp only [compareAscending, progString_toNumber h hhb p hpb, rankOrdering]
    · rcases hb with ⟨hh2, hq1, hq99⟩
      have hh2b : h2 < 10 := by rcases hh2 with rfl | rfl | rfl <;> omega
      have hqb : q < 100 := by omega
      rw [shapeVal, shapeVal, shapeRank, shapeRank]
      simp only [compareAscending]
      rw [jsStrCompare]
      exact progString_compare h hhb h2 hh2b p hpb q hqb

/-- C4 counterexample: the claimed precedence puts reconciliation-deactivated
objects first, but ascending `lastOperation` sort places a hard failure not in
progress (bucket 0) before a reconciliation-deactivated failed object (bucket 400):
sorting `[aaa (deactivated+failed), bbb (hard failure)]` yields `bbb` first, not
`aaa` as the claim requires. -/
theorem C4_counterexample :
    getSortedKeys sampleUtils (some "lastOperation") false
        [shootDeactivatedFailed, shootHardFailed]
      = ["ns1/bbb", "ns1/aaa"]
    ∧ ("ns1/bbb" : String) ≠ "ns1/aaa" := by
  constructor
  · decide
  · decide

/-- C4 (amended): ascending sort by the `lastOperation` column compares any two
objects exactly by the integer operator-triage rank — hard failure not in progress
(0) < hard failure in progress (100 + progress) < user-caused failure not in
progress (200) < user-caused failure in progress (300 + progress) <
reconciliation-deactivated with failure (400) < reconciliation-deactivated without
failure (450) < hibernated (500) < any other operation in progress (600 + progress)
< everything else (700) — with ties broken by name ascending.  (Progress percentages
are assumed to be at most 100, as the API delivers them.) -/
theorem C4_lastOperation_comparator (u : Utils) (a b : Shoot)
    (ha : progressWithinBounds a = true) (hb : progressWithinBounds b = true) :
    compareCriteria false (getSortVal u a "lastOperation", a.metadata.name)
        (getSortVal u b "lastOperation", b.metadata.name)
      = (match rankOrdering (lastOpRank u a) (lastOpRank u b) with
         | .eq => jsStrCompare a.metadata.name b.metadata.name
         | o => o) := by
  obtain ⟨sa, hva, hra, hsa⟩ := getSortValLastOperation_shape u a ha
  obtain ⟨sb, hvb, hrb, hsb⟩ := getSortValLastOperation_shape u b hb
  have hgA : getSortVal u a "lastOperation" = getSortValLastOperation u a := rfl
  have hgB : getSortVal u b "lastOperation" = getSortValLastOperation u b := rfl
  rw [compareCriteria]
  simp only [hgA, hgB, hva, hvb, hra, hrb]
  rw [shapeVal_compare sa sb hsa hsb]
  rfl

/-- C4 witness: the amended comparator correspondence at the two concrete objects of
the counterexample (ranks 400 and 0). -/
theorem C4_lastOperation_comparator_witness :
    compareCriteria false
        (getSortVal sampleUtils shootDeactivatedFailed "lastOperation",
          shootDeactivatedFailed.metadata.name)
        (getSortVal sampleUtils shootHardFailed "lastOperation",
          shootHardFailed.metadata.name)
      = (match rankOrdering (lastOpRank sampleUtils shootDeactivatedFailed)
            (lastOpRank sampleUtils shootHardFailed) with
         | .eq => jsStrCompare shootDeactivatedFailed.metadata.name
             shootHardFailed.metadata.name
         | o => o) :=
  C4_lastOperation_comparator sampleUtils shootDeactivatedFailed shootHardFailed
    (by decide) (by decide)

/-- C2 witness: an ADDED event for `shootX` handled while throttled is absent from
the keyed collection until `processEvents` runs, which then applies it. -/
theorem C2_application_deferred_by_throttle_witness :
    getItemByKey (processEvents sampleUtils c3Ctx
        (handleEvent sampleUtils c3Ctx {} { type := EventType.added, object := shootX } false))
      (getKey shootX.metadata) = some shootX :=
  (C2_application_deferred_by_throttle sampleUtils c3Ctx {}
      { type := EventType.added, object := shootX }).2.2.2.2.2.2 rfl rfl (by decide) (by decide)

end GD